import Mathlib

set_option linter.unusedVariables false

/-!
# Verification of the VS-Code-STM32-IDE path-resolution and reconciliation engine

A shallow embedding of the Python scripts `ideScripts/utilities.py`,
`ideScripts/updatePaths.py` and `ideScripts/updateBuildData.py`.

Modelling conventions:
* JSON documents (`buildData.json`, `toolsPaths.json`) are association lists
  `List (String × JVal)` in insertion order; Python `dict` assignment keeps the
  position of an existing key and appends a new one, and `json.dumps` with
  `sort_keys=False` serializes insertion order, so two documents are
  byte-identical on disk iff the association lists are equal.
* Operating-system calls (`os.path.exists`, `shutil.which`, `os.walk`) are an
  oracle record `FileSys` of pure functions; the operator's console input is an
  explicit list of lines, one line per `input()` call; an `input()` on an
  exhausted list models the process blocking forever (or dying on `EOFError`),
  i.e. never returning normally.
* `sys.exit(1)` via `printAndQuit`, `UnboundLocalError`, and uncaught
  `KeyError`/`TypeError` are the error cases of `Except PyErr`.
* Filesystem path strings follow the POSIX `os.path` algorithms
  (`posixpath.join` / `normpath` / `dirname`), translated from CPython;
  Python `str` primitives (`lower`, `split`, `replace`, `startswith`,
  `endswith`) are implemented over `List Char` with their CPython semantics.
-/

namespace VSCodeSTM32IDE

/-! ## Python string primitives -/

/-- Python `str.lower` (ASCII letters; only ASCII data reaches it here). -/
def pyLower (s : String) : String :=
  String.mk (s.toList.map Char.toLower)

/-- Does the first list occur at the head of the second? -/
def listHasPfx : List Char → List Char → Bool
  | [], _ => true
  | _ :: _, [] => false
  | a :: as, b :: bs => if a = b then listHasPfx as bs else false

/-- Python `str.startswith`. -/
def pyStartsWith (s pre : String) : Bool :=
  listHasPfx pre.toList s.toList

/-- Python `str.endswith`. -/
def pyEndsWith (s suf : String) : Bool :=
  listHasPfx suf.toList.reverse s.toList.reverse

/-- Python `str.split(sep)` for a one-character separator, on char lists. -/
def splitCharAux (sep : Char) : List Char → List Char → List (List Char)
  | [], acc => [acc.reverse]
  | c :: cs, acc =>
    if c = sep then acc.reverse :: splitCharAux sep cs []
    else splitCharAux sep cs (c :: acc)

/-- Python `str.split()` (no argument): split on whitespace runs, no empties. -/
def pySplitWsAux : List Char → List Char → List (List Char)
  | [], acc => if acc = [] then [] else [acc.reverse]
  | c :: cs, acc =>
    if c.isWhitespace then
      if acc = [] then pySplitWsAux cs []
      else acc.reverse :: pySplitWsAux cs []
    else pySplitWsAux cs (c :: acc)

/-- Python `str.split()` on a string. -/
def pySplitWs (s : String) : List String :=
  (pySplitWsAux s.toList []).map String.mk

/-- Python `str.replace(old, new)` for a one-character `old`. -/
def pyReplaceChar (s : String) (old : Char) (new : String) : String :=
  String.mk (s.toList.foldr (fun c acc => if c = old then new.toList ++ acc else c :: acc) [])

/-! ## Core data model -/

/-- A JSON value as it occurs in the two persisted documents: every field is a
string except the debugger-config field, which is a list of strings. -/
inductive JVal where
  | str : String → JVal
  | arr : List String → JVal
  deriving DecidableEq, Repr

/-- A parsed JSON document: keys with values, in insertion order. -/
abbrev Doc := List (String × JVal)

/-- Python `d[k]` read: the value at the first (unique, for parsed JSON)
occurrence of key `k`. -/
def dGet : Doc → String → Option JVal
  | [], _ => none
  | e :: es, k => if e.1 = k then some e.2 else dGet es k

/-- Python `k in d`. -/
def dHas (d : Doc) (k : String) : Bool :=
  (dGet d k).isSome

/-- Python `d[k] = v` write: an existing key keeps its value replaced in
position, a new key is appended at the end (CPython dict insertion-order
semantics; parsed documents have unique keys). -/
def dSet : Doc → String → JVal → Doc
  | [], k, v => [(k, v)]
  | e :: es, k, v => if e.1 = k then (k, v) :: es else e :: dSet es k v

/-- A document coming from `json.load` has pairwise-distinct keys (a Python
dict cannot hold duplicates). -/
def keysNodup (d : Doc) : Prop :=
  (d.map Prod.fst).Nodup

/-- The outcomes by which an embedded operation can fail to return normally. -/
inductive PyErr where
  /-- `utilities.printAndQuit`: prints and calls `sys.exit(1)`. -/
  | fatal : String → PyErr
  /-- `UnboundLocalError`: a local variable read before assignment. -/
  | unboundLocal : PyErr
  /-- An uncaught `KeyError` / `TypeError` escaping to the top level. -/
  | pyException : PyErr
  /-- `input()` with the operator input stream exhausted: the real process
  blocks forever (or dies on `EOFError`); it never returns normally. -/
  | exhausted : PyErr
  deriving DecidableEq, Repr

/-- The operating-system oracle: the pure behaviour, during one run, of the
`os`/`shutil` calls the engine makes. `osWalk p` is the list of
`(dirpath, filenames)` pairs yielded by `os.walk(p, topdown=False)`. -/
structure FileSys where
  osPathExists : String → Bool
  shutilWhich : String → Option String
  osWalk : String → List (String × List String)

/-- `utilities.pathExists` (utilities.py:53-62): `True` if `os.path.exists`
accepts the path or `shutil.which` resolves it; `False` for `None`. -/
def pathExists (fs : FileSys) : Option String → Bool
  | none => false
  | some path =>
    if fs.osPathExists path then true
    else if (fs.shutilWhich path).isSome then true
    else false

/-- `utilities.detectOS` (utilities.py:65-80), as a function of `os.name` and
`platform.release()`. On an unrecognized `os.name` the final `return osIs`
raises `UnboundLocalError`. -/
def detectOS (osName : String) (platformRelease : String) : Except PyErr String :=
  if osName = "nt" then .ok "windows"
  else if osName = "java" then .ok "java"
  else if osName = "posix" then
    if pyEndsWith (pyLower platformRelease) "microsoft" then .ok "wsl"
    else .ok "unix"
  else .error .unboundLocal

/-! ## POSIX path algorithms (CPython `posixpath`), used by the embedded code -/

/-- The component-collapsing loop of CPython `posixpath.normpath`. -/
def posixNormpathComps (initialSlashes : Nat) (comps : List String) : List String :=
  comps.foldl (fun acc comp =>
    if comp = "" ∨ comp = "." then acc
    else if comp ≠ ".." ∨ (initialSlashes = 0 ∧ acc = []) ∨ acc.getLast? = some ".." then
      acc ++ [comp]
    else if acc = [] then acc
    else acc.dropLast) []

/-- CPython `posixpath.normpath`. -/
def posixNormpath (path : String) : String :=
  if path = "" then "."
  else
    let initialSlashes : Nat :=
      if pyStartsWith path "/" then
        if pyStartsWith path "//" && !(pyStartsWith path "///") then 2 else 1
      else 0
    let comps := (splitCharAux '/' path.toList []).map String.mk
    let newComps := posixNormpathComps initialSlashes comps
    let joined := String.mk (List.replicate initialSlashes '/') ++
      String.mk (List.intercalate ['/'] (newComps.map String.toList))
    if joined = "" then "." else joined

/-- CPython `posixpath.join` on two components. -/
def posixJoin (a b : String) : String :=
  if pyStartsWith b "/" then b
  else if a = "" ∨ pyEndsWith a "/" then a ++ b
  else a ++ "/" ++ b

/-- Index of the last `/` in a character list (CPython `str.rfind` helper). -/
def lastSlashIdxAux : List Char → Nat → Option Nat → Option Nat
  | [], _, acc => acc
  | c :: cs, i, acc => lastSlashIdxAux cs (i + 1) (if c = '/' then some i else acc)

/-- CPython `posixpath.dirname`. -/
def posixDirname (p : String) : String :=
  let cs := p.toList
  match lastSlashIdxAux cs 0 none with
  | none => ""
  | some i =>
    let head := cs.take (i + 1)
    if head.all (fun c => c = '/') then String.mk head
    else String.mk ((head.reverse.dropWhile (fun c => c = '/')).reverse)

/-- `utilities.pathWithForwardSlashes` (utilities.py:354-357): `os.path.normpath`
then replace backslashes by forward slashes. -/
def pathWithForwardSlashes (path : String) : String :=
  pyReplaceChar (posixNormpath path) '\\' "/"

/-- The `toolsPaths.json` location computation of
`utilities.verifyFolderStructure` (utilities.py:164-171): the settings folder is
assigned only in the `"windows"` and `"unix"` branches; any other detected OS
reaches the `os.path.join` with `vsCodeSettingsFolderPath` unassigned, raising
`UnboundLocalError`. -/
def vsCodeSettingsFolderPath (osIs : String) (appdata home : String) : Except PyErr String :=
  if osIs = "windows" then .ok (appdata ++ "\\Code\\User\\")
  else if osIs = "unix" then .ok (home ++ "/.config/Code/User/")
  else .error .unboundLocal

/-- `utilities.verifyFolderStructure`, restricted to the computation of the
`toolsPaths` global (utilities.py:164-171). -/
def toolsPathsLocation (osName platformRelease appdata home : String) : Except PyErr String := do
  let osIs ← detectOS osName platformRelease
  let folder ← vsCodeSettingsFolderPath osIs appdata home
  return pathWithForwardSlashes (posixJoin folder "toolsPaths.json")

/-! ## Persisted-file model -/

/-- The observable state of a persisted JSON file: parseable with some
document, or present but corrupt (any `json.load` failure). -/
inductive FileContent where
  | corrupt : FileContent
  | json : Doc → FileContent
  deriving DecidableEq, Repr

/-- `BuildData.checkToolsPathFile` (updateBuildData.py:99-126), acting on the
state of `toolsPaths.json`: returns whether a valid file exists, and the
resulting file state. A corrupt file is removed (`os.remove`) and `False`
returned; an absent file just returns `False`. -/
def checkToolsPathFile : Option FileContent → Bool × Option FileContent
  | some (.json d) => (true, some (.json d))
  | some .corrupt => (false, none)
  | none => (false, none)

/-! ## Descriptor field names (`BuildDataStrings`, updateBuildData.py:19-48) -/

namespace BStr

def cSources : String := "cSources"

def asmSources : String := "asmSources"

def cIncludes : String := "cIncludes"

def asmIncludes : String := "asmIncludes"

def cDefines : String := "cDefines"

def asmDefines : String := "asmDefines"

def cFlags : String := "cFlags"

def asmFlags : String := "asmFlags"

def buildDirPath : String := "buildDir"

/-- Note: the typo is the source's own (`gccInludePath = 'gccInludePath'`). -/
def gccInludePath : String := "gccInludePath"

def gccExePath : String := "gccExePath"

def buildToolsPath : String := "buildToolsPath"

def targetExecutablePath : String := "targetExecutablePath"

def pythonPath : String := "pythonPath"

def openOcdPath : String := "openOcdPath"

def openOcdConfig : String := "openOcdConfig"

def stm32SvdPath : String := "stm32SvdPath"

def stm32SvdFile : String := "stm32SvdFile"

end BStr

/-! ## Interactive prompt loops (utilities.py) -/

/-- `utilities.getYesNoAnswer` (utilities.py:319-331): repeat until the lowered
answer is `y` or `n`. -/
def getYesNoAnswer : List String → Except PyErr (Bool × List String)
  | [] => .error .exhausted
  | resp :: rest =>
    if pyLower resp = "y" then .ok (true, rest)
    else if pyLower resp = "n" then .ok (false, rest)
    else getYesNoAnswer rest

/-- `utilities.getUserPath` (utilities.py:334-351): strip quote characters,
normalize slashes, repeat until the entered path passes `pathExists`. -/
def getUserPath (fs : FileSys) : List String → Except PyErr (String × List String)
  | [] => .error .exhausted
  | line :: rest =>
    let path := pathWithForwardSlashes (pyReplaceChar (pyReplaceChar line '\"' "") '\x27' "")
    if pathExists fs (some path) then .ok (path, rest)
    else getUserPath fs rest

/-- The OS-dependent python command of `utilities.getPython3Path`
(utilities.py:386-391). -/
def pythonCmd (osIs : String) : String :=
  if osIs = "unix" ∨ osIs = "wsl" then "python3" else "python"

/-- `utilities.getPython3Path` (utilities.py:382-398): `python3` on unix/wsl,
`python` otherwise; if that fails the probe, fall back to `getUserPath`. -/
def getPython3Path (fs : FileSys) (osIs : String) (inp : List String) :
    Except PyErr (String × List String) :=
  if pathExists fs (some (pythonCmd osIs)) then .ok (pythonCmd osIs, inp)
  else getUserPath fs inp

/-- `utilities.getStm32SvdFile` (utilities.py:446-463): repeat until the named
file exists inside the SVD folder; `ls` only lists and re-prompts. -/
def getStm32SvdFile (fs : FileSys) (stm32SvdPath : String) :
    List String → Except PyErr (String × List String)
  | [] => .error .exhausted
  | fileName :: rest =>
    if fileName = "ls" then getStm32SvdFile fs stm32SvdPath rest
    else if pathExists fs (some (stm32SvdPath ++ "/" ++ fileName)) then .ok (fileName, rest)
    else getStm32SvdFile fs stm32SvdPath rest

/-! ## Derived-path computations (utilities.py) -/

/-- The fixed search path of `utilities.getGccIncludePath` (utilities.py:368-370):
`os.path.join(dirname(dirname(gccExePath)), "lib", "gcc", "arm-none-eabi")`. -/
def gccSearchPath (gccExePath : String) : String :=
  posixJoin (posixJoin (posixJoin (posixDirname (posixDirname gccExePath)) "lib") "gcc")
    "arm-none-eabi"

/-- `utilities.getGccIncludePath` (utilities.py:360-380): first directory of the
bottom-up walk of the search path whose files contain `stdint.h`; fatal
(`printAndQuit`) if there is none. -/
def getGccIncludePath (fs : FileSys) (gccExePath : String) : Except PyErr String :=
  match (fs.osWalk (gccSearchPath gccExePath)).find? (fun e => e.2.contains "stdint.h") with
  | some e => .ok (pathWithForwardSlashes e.1)
  | none => .error (.fatal ("Unable to find \x27include\x27 subfolder with stdint.h file on path:\n\t"
      ++ gccSearchPath gccExePath))

/-- The debugger script directory of `utilities.getOpenOcdConfig`
(utilities.py:416-418): `dirname(dirname(openOcdPath))/share/openocd/scripts`. -/
def openOcdScriptsPath (openOcdPath : String) : String :=
  posixJoin (posixJoin (posixJoin (posixDirname (posixDirname openOcdPath)) "share") "openocd")
    "scripts"

/-- The argument loop of `utilities.getOpenOcdConfig` (utilities.py:428-438):
a fragment resolving under the scripts directory is collected; otherwise a
fragment with a leading `-` is skipped; any other fragment rejects the whole
line (`None`). The `for`-`else` returns the collected list when no fragment
was rejected. -/
def scanConfigArgs (fs : FileSys) (scriptsPath : String) :
    List String → List String → Option (List String)
  | configPaths, [] => some configPaths
  | configPaths, arg :: rest =>
    if pathExists fs (some (scriptsPath ++ "/" ++ arg)) then
      scanConfigArgs fs scriptsPath (configPaths ++ [scriptsPath ++ "/" ++ arg]) rest
    else if pyStartsWith arg "-" then scanConfigArgs fs scriptsPath configPaths rest
    else none

/-- The spec's per-fragment acceptance condition (§4.4): a fragment is accepted
iff it resolves under the scripts directory or is a flag (leading `-`). -/
def argOk (fs : FileSys) (scriptsPath arg : String) : Bool :=
  pathExists fs (some (scriptsPath ++ "/" ++ arg)) || pyStartsWith arg "-"

/-- One entered line of `utilities.getOpenOcdConfig`: slash-normalized, split
on whitespace, and scanned fragment by fragment with a fresh `configPaths`. -/
def processConfigLine (fs : FileSys) (scriptsPath : String) (line : String) :
    Option (List String) :=
  scanConfigArgs fs scriptsPath [] (pySplitWs (pathWithForwardSlashes line))

/-- `utilities.getOpenOcdConfig` (utilities.py:401-443): re-prompt whole lines
until one line has every fragment accepted. -/
def getOpenOcdConfig (fs : FileSys) (openOcdPath : String) :
    List String → Except PyErr (List String × List String)
  | [] => .error .exhausted
  | line :: rest =>
    match processConfigLine fs (openOcdScriptsPath openOcdPath) line with
    | some configPaths => .ok (configPaths, rest)
    | none => getOpenOcdConfig fs openOcdPath rest

/-- `utilities.getBuildElfFilePath` (utilities.py:466-474):
`normpath(join(workspacePath, buildDirPath, projectName + ".elf"))` with
forward slashes. -/
def getBuildElfFilePath (workspacePath buildDirPath projectName : String) : String :=
  pathWithForwardSlashes (posixJoin (posixJoin workspacePath buildDirPath) (projectName ++ ".elf"))

/-! ## The reconciliation engine (`UpdatePaths`, updatePaths.py) -/

/-- The run-wide context: the OS oracle, the detected OS family, the
`utils.workspacePath` global, and the `buildData.json` template. -/
structure Ctx where
  fs : FileSys
  osIs : String
  workspacePath : String
  /-- Modelled from the spec (§3, §4.3): the fixed template document
  `templateStrings.buildDataTemplate`; `templateStrings.py` is not under
  `src/`, and no claim depends on its contents, so it stays abstract. -/
  template : Doc

/-- `UpdatePaths.toolsList` (updatePaths.py:23-29): `(path, name, default,
updated?)` per tracked tool; note the svd default is string concatenation
`utils.workspacePath + "SVD"`. -/
def toolsList (workspacePath : String) : List (String × String × String × Bool) :=
  [(BStr.gccExePath, "arm-none-eabi-gcc", "arm-none-eabi-gcc", false),
   (BStr.buildToolsPath, "make", "make", false),
   (BStr.openOcdPath, "openocd", "openocd", false),
   (BStr.stm32SvdPath, "STM target \x27*.svd\x27 folder (example: .../Keil*/CMSIS/SVD)",
     workspacePath ++ "SVD", false)]

/-- `UpdatePaths.updatePath` (updatePaths.py:77-95): if the default passes the
probe, offer it (resolved through `shutil.which` when possible); on refusal or
an invalid default, fall back to `getUserPath`. -/
def updatePath (fs : FileSys) (path pathName default : String) (inp : List String) :
    Except PyErr (String × List String) :=
  if pathExists fs (some default) then
    let pathDefault := (fs.shutilWhich default).getD default
    match getYesNoAnswer inp with
    | .ok (true, rest) => .ok (pathDefault, rest)
    | .ok (false, rest) => getUserPath fs rest
    | .error e => .error e
  else getUserPath fs inp

/-- The `try` block of one `verifyExistingPaths` iteration
(updatePaths.py:39-51): the `_` row is the bare `except` catching the
`KeyError` of a missing field and the `TypeError` of a non-string field, both
repaired through `updatePath`. -/
def processToolTry (fs : FileSys) (request : Bool) (path pathName default : String)
    (updated0 : Bool) (bd : Doc) (inp : List String) :
    Except PyErr ((Doc × Bool) × List String) :=
  match dGet bd path with
  | some (.str pathToCheck) =>
    if pathExists fs (some pathToCheck) then
      if request then
        match getYesNoAnswer inp with
        | .ok (true, rest) =>
          match updatePath fs path pathName default rest with
          | .ok (p, rest2) => .ok ((dSet bd path (.str p), true), rest2)
          | .error e => .error e
        | .ok (false, rest) => .ok ((bd, updated0), rest)
        | .error e => .error e
      else .ok ((bd, updated0), inp)
    else
      match updatePath fs path pathName default inp with
      | .ok (p, rest) => .ok ((dSet bd path (.str p), true), rest)
      | .error e => .error e
  | _ =>
    match updatePath fs path pathName default inp with
    | .ok (p, rest) => .ok ((dSet bd path (.str p), true), rest)
    | .error e => .error e

/-- The same iteration with the bare `except` also catching an `EOFError`
raised by an `input()` inside the `try` (the stream is then exhausted, so the
repairing `updatePath` runs on an empty stream). -/
def processToolChecked (fs : FileSys) (request : Bool) (path pathName default : String)
    (updated0 : Bool) (bd : Doc) (inp : List String) :
    Except PyErr ((Doc × Bool) × List String) :=
  match processToolTry fs request path pathName default updated0 bd inp with
  | .error .exhausted =>
    match updatePath fs path pathName default [] with
    | .ok (p, rest) => .ok ((dSet bd path (.str p), true), rest)
    | .error e => .error e
  | r => r

/-- The derived-field block of one `verifyExistingPaths` iteration
(updatePaths.py:56-69): only an updated tool recomputes its derived field; the
field reads outside any `try` make a missing/non-string value an uncaught
exception. -/
def processDerived (ctx : Ctx) (path : String) (bd : Doc) (updated : Bool)
    (inp : List String) : Except PyErr (Doc × List String) :=
  if updated then
    if path = BStr.gccExePath then
      match dGet bd BStr.gccExePath with
      | some (.str gccExePath) =>
        match getGccIncludePath ctx.fs gccExePath with
        | .ok inc => .ok (dSet bd BStr.gccInludePath (.str inc), inp)
        | .error e => .error e
      | _ => .error .pyException
    else if path = BStr.openOcdPath then
      match dGet bd BStr.openOcdPath with
      | some (.str openOcdPath) =>
        match getOpenOcdConfig ctx.fs openOcdPath inp with
        | .ok (cfg, rest) => .ok (dSet bd BStr.openOcdConfig (.arr cfg), rest)
        | .error e => .error e
      | _ => .error .pyException
    else if path = BStr.stm32SvdPath then
      match dGet bd BStr.stm32SvdPath with
      | some (.str svdPath) =>
        match getStm32SvdFile ctx.fs svdPath inp with
        | .ok (f, rest) => .ok (dSet bd BStr.stm32SvdFile (.str f), rest)
        | .error e => .error e
      | _ => .error .pyException
    else .ok (bd, inp)
  else .ok (bd, inp)

/-- One full iteration of the `verifyExistingPaths` loop (updatePaths.py:38-72):
check/repair the tool path, recompute its derived field when updated, then
unconditionally recompute `pythonPath`. -/
def processTool (ctx : Ctx) (request : Bool) (tool : String × String × String × Bool)
    (st : Doc × List String) : Except PyErr (Doc × List String) :=
  match processToolChecked ctx.fs request tool.1 tool.2.1 tool.2.2.1 tool.2.2.2 st.1 st.2 with
  | .error e => .error e
  | .ok ((bd1, updated), inp1) =>
    match processDerived ctx tool.1 bd1 updated inp1 with
    | .error e => .error e
    | .ok (bd2, inp2) =>
      match getPython3Path ctx.fs ctx.osIs inp2 with
      | .ok (py, inp3) => .ok (dSet bd2 BStr.pythonPath (.str py), inp3)
      | .error e => .error e

/-- The `for` loop of `UpdatePaths.verifyExistingPaths`, tool by tool. -/
def verifyToolsLoop (ctx : Ctx) (request : Bool) :
    List (String × String × String × Bool) → Doc × List String →
    Except PyErr (Doc × List String)
  | [], st => .ok st
  | t :: ts, st =>
    match processTool ctx request t st with
    | .ok st1 => verifyToolsLoop ctx request ts st1
    | .error e => .error e

/-- `UpdatePaths.verifyExistingPaths` (updatePaths.py:31-74): the loop over the
tracked tool list. -/
def verifyExistingPaths (ctx : Ctx) (bd : Doc) (request : Bool) (inp : List String) :
    Except PyErr (Doc × List String) :=
  verifyToolsLoop ctx request (toolsList ctx.workspacePath) (bd, inp)

/-- The derived-field key a tracked tool key owns (updatePaths.py:58-69). -/
def derivedKeyOf (k : String) : Option String :=
  if k = BStr.gccExePath then some BStr.gccInludePath
  else if k = BStr.openOcdPath then some BStr.openOcdConfig
  else if k = BStr.stm32SvdPath then some BStr.stm32SvdFile
  else none

/-- Wellformedness of the OS oracle: a path reported by `shutil.which` exists
(true of the real `shutil.which`, which access-checks its result). -/
def FileSys.WhichValid (fs : FileSys) : Prop :=
  ∀ c w, fs.shutilWhich c = some w → fs.osPathExists w = true

/-! ## BuildDescriptor persistence (`BuildData`, updateBuildData.py) -/

/-- `BuildData.checkBuildDataFile` (updateBuildData.py:75-97): an absent or
unparsable `buildData.json` is (re)created from the template. -/
def checkBuildDataFile (template : Doc) : Option FileContent → Option FileContent
  | some (.json d) => some (.json d)
  | some .corrupt => some (.json template)
  | none => some (.json template)

/-- `BuildData.getBuildData` (updateBuildData.py:185-193): read the descriptor;
existence/validity was established by `checkBuildDataFile`. -/
def getBuildData : Option FileContent → Except PyErr Doc
  | some (.json d) => .ok d
  | _ => .error .pyException

/-- `BuildData.getToolsPathsData` (updateBuildData.py:175-183). -/
def getToolsPathsData : Option FileContent → Except PyErr Doc
  | some (.json d) => .ok d
  | _ => .error .pyException

/-- The eight tool fields shared by descriptor and cache
(updateBuildData.py:136-143 and 201-208), in source order. -/
def userToolsKeys : List String :=
  [BStr.gccExePath, BStr.gccInludePath, BStr.buildToolsPath, BStr.pythonPath,
   BStr.openOcdPath, BStr.openOcdConfig, BStr.stm32SvdPath, BStr.stm32SvdFile]

/-- `BuildData.addToolsPathsData` (updateBuildData.py:195-210): overwrite the
eight tool fields of the descriptor with the cache's values; a key missing
from the cache raises an uncaught `KeyError`. -/
def addToolsPathsData (toolsPathsData buildData : Doc) : Except PyErr Doc :=
  userToolsKeys.foldlM (fun bd k =>
    match dGet toolsPathsData k with
    | some v => .ok (dSet bd k v)
    | none => .error .pyException) buildData

/-- `BuildData.createUserToolsFile` (updateBuildData.py:128-155): the document
written to `toolsPaths.json` — two header lines then the eight tool fields; a
missing field raises `KeyError` before the file is opened, which the local
`except` turns into a warning with no write (`none`). -/
def createUserToolsFile (buildData : Doc) : Option Doc :=
  match dGet buildData BStr.gccExePath, dGet buildData BStr.gccInludePath,
      dGet buildData BStr.buildToolsPath, dGet buildData BStr.pythonPath,
      dGet buildData BStr.openOcdPath, dGet buildData BStr.openOcdConfig,
      dGet buildData BStr.stm32SvdPath, dGet buildData BStr.stm32SvdFile with
  | some v1, some v2, some v3, some v4, some v5, some v6, some v7, some v8 =>
    some ([("ABOUT1", .str "Common tools paths that are automatically filled in buildData.json."),
      ("ABOUT2", .str "Delete/correct this file if paths change on system."),
      (BStr.gccExePath, v1), (BStr.gccInludePath, v2), (BStr.buildToolsPath, v3),
      (BStr.pythonPath, v4), (BStr.openOcdPath, v5), (BStr.openOcdConfig, v6),
      (BStr.stm32SvdPath, v7), (BStr.stm32SvdFile, v8)])
  | _, _, _, _, _, _, _, _ => none

/-- The mutable on-disk and console state threaded through one run. -/
structure World where
  buildDataFile : Option FileContent
  toolsPathsFile : Option FileContent
  input : List String
  deriving DecidableEq, Repr

/-- `BuildData.prepareBuildData` (updateBuildData.py:57-73): ensure the
descriptor exists, overlay the cache when present, verify all tool paths
(`request=False`), and rewrite `toolsPaths.json` from the result. -/
def prepareBuildData (ctx : Ctx) (w : World) : Except PyErr (Doc × World) := do
  let bdf := checkBuildDataFile ctx.template w.buildDataFile
  let buildData ← getBuildData bdf
  let (tpExists, tpf) := checkToolsPathFile w.toolsPathsFile
  let buildData ←
    if tpExists then do
      let tp ← getToolsPathsData tpf
      addToolsPathsData tp buildData
    else pure buildData
  match verifyExistingPaths ctx buildData false w.input with
  | .error e => .error e
  | .ok (buildData, inp) =>
    let w1 : World := { buildDataFile := bdf, toolsPathsFile := tpf, input := inp }
    match createUserToolsFile buildData with
    | some d => .ok (buildData, { w1 with toolsPathsFile := some (.json d) })
    | none => .ok (buildData, w1)

/-- `utils.__version__` (utilities.py:17), stamped as `VERSION`. -/
def scriptVersion : String := "1.4"

/-- `BuildData.overwriteBuildDataFile` (updateBuildData.py:264-283): stamp
`VERSION` and `LAST_RUN`, truncate and rewrite the whole document; opening an
absent file in `r+` mode fails, which `printAndQuit` makes fatal. -/
def overwriteBuildDataFile (now : String) (data : Doc) (w : World) : Except PyErr World :=
  match w.buildDataFile with
  | none => .error (.fatal "Exception error overwriting \x27buildData.json\x27 file")
  | some _ =>
    let d1 := dSet (dSet data "VERSION" (.str scriptVersion)) "LAST_RUN" (.str now)
    .ok { w with buildDataFile := some (.json d1) }

/-- One reconciliation run as §8 reads it: `prepareBuildData` (verify paths,
rewrite `toolsPaths.json`) followed by `overwriteBuildDataFile` stamping the
descriptor. -/
def reconcileRun (ctx : Ctx) (now : String) (w : World) : Except PyErr World := do
  let (bd, w1) ← prepareBuildData ctx w
  overwriteBuildDataFile now bd w1

/-! ## Build-facts consumption (`BuildData.addMakefileDataToBuildDataFile`) -/

/-- Modelled from the spec (§6): the build-facts collaborator's fixed field
names (`updateMakefile.MakefileStrings`); `updateMakefile.py` is not under
`src/`, so the names stay abstract. -/
structure MakefileStrings where
  cSources : String
  asmSources : String
  cIncludes : String
  asmIncludes : String
  cDefines : String
  asmDefines : String
  cFlags : String
  asmFlags : String
  buildDir : String
  projectName : String

/-- A Python `d[k]` read whose `KeyError` is not caught. -/
def mget (d : Doc) (k : String) : Except PyErr JVal :=
  match dGet d k with
  | some v => .ok v
  | none => .error .pyException

/-- `BuildData.addMakefileDataToBuildDataFile` (updateBuildData.py:212-254):
copy the build facts verbatim, then derive `targetExecutablePath` with
`getBuildElfFilePath` from the build directory and project name. -/
def addMakefileDataToBuildDataFile (mkfStr : MakefileStrings) (workspacePath : String)
    (buildData makefileData : Doc) : Except PyErr Doc := do
  let cS ← mget makefileData mkfStr.cSources
  let bd := dSet buildData BStr.cSources cS
  let aS ← mget makefileData mkfStr.asmSources
  let bd := dSet bd BStr.asmSources aS
  let cI ← mget makefileData mkfStr.cIncludes
  let bd := dSet bd BStr.cIncludes cI
  let aI ← mget makefileData mkfStr.asmIncludes
  let bd := dSet bd BStr.asmIncludes aI
  let cD ← mget makefileData mkfStr.cDefines
  let bd := dSet bd BStr.cDefines cD
  let aD ← mget makefileData mkfStr.asmDefines
  let bd := dSet bd BStr.asmDefines aD
  let cF ← mget makefileData mkfStr.cFlags
  let bd := dSet bd BStr.cFlags cF
  let aF ← mget makefileData mkfStr.asmFlags
  let bd := dSet bd BStr.asmFlags aF
  let bD ← mget makefileData mkfStr.buildDir
  let bd := dSet bd BStr.buildDirPath bD
  let pN ← mget makefileData mkfStr.projectName
  match bD, pN with
  | .str buildDirPath, .str projectName =>
    .ok (dSet bd BStr.targetExecutablePath
      (.str (getBuildElfFilePath workspacePath buildDirPath projectName)))
  | _, _ => .error .pyException

/-- The spec's wording (§6, §8) of the derived target-executable field:
`<outputDir>/<projectName>.elf`. -/
def specTargetExecutablePath (outputDir projectName : String) : String :=
  outputDir ++ "/" ++ projectName ++ ".elf"

/-- Concrete makefile field names for the C5 evaluation. -/
def mkfStrW : MakefileStrings :=
  { cSources := "mkCSources", asmSources := "mkAsmSources", cIncludes := "mkCIncludes",
    asmIncludes := "mkAsmIncludes", cDefines := "mkCDefines", asmDefines := "mkAsmDefines",
    cFlags := "mkCFlags", asmFlags := "mkAsmFlags", buildDir := "mkBuildDir",
    projectName := "mkProjectName" }

/-- Concrete build facts for the C5 evaluation: a relative output directory
`build` and project name `proj`. -/
def mdW : Doc :=
  [("mkCSources", .arr ["main.c", "drv.c"]), ("mkAsmSources", .arr ["startup.s"]),
   ("mkCIncludes", .arr ["Inc"]), ("mkAsmIncludes", .arr []),
   ("mkCDefines", .arr ["STM32F042x6"]), ("mkAsmDefines", .arr []),
   ("mkCFlags", .arr ["-O0"]), ("mkAsmFlags", .arr []),
   ("mkBuildDir", .str "build"), ("mkProjectName", .str "proj")]

/-- `Except.isOk`, separated out for decidable concrete evaluation. -/
def exceptIsOk {α : Type} : Except PyErr α → Bool
  | .ok _ => true
  | .error _ => false

/-- A concrete filesystem for the claim evaluations: a handful of existing
paths, no executable-search resolution, one gcc toolchain tree. -/
def fsW : FileSys :=
  { osPathExists := fun p =>
      (["A", "B", "M", "O", "S", "G", "python3", "arm-none-eabi-gcc"] : List String).contains p
    shutilWhich := fun _ => none
    osWalk := fun p =>
      if p = "lib/gcc/arm-none-eabi" then
        [("lib/gcc/arm-none-eabi/9/include", ["stdint.h"])]
      else [] }

/-- A concrete run context over `fsW`. -/
def ctxW : Ctx :=
  { fs := fsW, osIs := "unix", workspacePath := "/ws", template := [] }

/-- C1 fixture: a descriptor whose stored compiler path `A` is valid. -/
def bdC1 : Doc := [(BStr.gccExePath, .str "A")]

/-- C1 fixture: a complete cache whose compiler path `B` is valid and differs
from the descriptor's. -/
def tpC1 : Doc :=
  [(BStr.gccExePath, .str "B"), (BStr.gccInludePath, .str "incB"),
   (BStr.buildToolsPath, .str "M"), (BStr.pythonPath, .str "python3"),
   (BStr.openOcdPath, .str "O"), (BStr.openOcdConfig, .arr ["cfg"]),
   (BStr.stm32SvdPath, .str "S"), (BStr.stm32SvdFile, .str "f.svd")]

/-- C1 fixture: descriptor and cache both present and valid, no console
input. -/
def wC1 : World :=
  { buildDataFile := some (.json bdC1), toolsPathsFile := some (.json tpC1), input := [] }

/-- C2 fixture: a descriptor whose stored compiler path fails the probe. -/
def bdC2 : Doc :=
  [(BStr.gccExePath, .str "badgcc"), (BStr.buildToolsPath, .str "M"),
   (BStr.openOcdPath, .str "O"), (BStr.stm32SvdPath, .str "S")]

/-- C8 fixture: a descriptor whose four stored tool paths all pass the
probe. -/
def bdC8 : Doc :=
  [(BStr.gccExePath, .str "G"), (BStr.buildToolsPath, .str "M"),
   (BStr.openOcdPath, .str "O"), (BStr.stm32SvdPath, .str "S"),
   (BStr.gccInludePath, .str "inc")]

/-- C4 fixture: a fully valid descriptor. -/
def bdC4 : Doc :=
  [(BStr.gccExePath, .str "A"), (BStr.buildToolsPath, .str "M"),
   (BStr.openOcdPath, .str "O"), (BStr.stm32SvdPath, .str "S")]

/-- C4 fixture: both documents on disk, valid, cache complete. -/
def wC4 : World :=
  { buildDataFile := some (.json bdC4), toolsPathsFile := some (.json tpC1), input := [] }

/-! ## Claim C9 — the existence probe is total -/

/-- `pathExists` on a present candidate is the disjunction of the two OS
probes. -/
theorem pathExists_some (fs : FileSys) (p : String) :
    pathExists fs (some p) = (fs.osPathExists p || (fs.shutilWhich p).isSome) := by
  simp only [pathExists]
  by_cases h1 : fs.osPathExists p <;> by_cases h2 : (fs.shutilWhich p).isSome <;>
    simp [h1, h2]

/-- The spec's wording of a valid candidate (§4.1): an existing filesystem path
or a name resolvable on the executable search path. -/
def specValidCandidate (fs : FileSys) (p : String) : Prop :=
  fs.osPathExists p = true ∨ ∃ w, fs.shutilWhich p = some w

/-- C9: `pathExists` is total: it returns `True` exactly when the candidate
exists on disk or resolves on the executable search path, and it returns
`False` for `None` and (given that the OS rejects the empty string, as the real
`os.path.exists`/`shutil.which` do) for the empty string, without raising. -/
theorem c9_pathExists_total (fs : FileSys) :
    pathExists fs none = false ∧
    (∀ p : String, pathExists fs (some p) = true ↔ specValidCandidate fs p) ∧
    (fs.osPathExists "" = false → fs.shutilWhich "" = none →
      pathExists fs (some "") = false) := by
  refine ⟨rfl, fun p => ?_, fun h1 h2 => ?_⟩
  · rw [pathExists_some]
    simp [specValidCandidate, Option.isSome_iff_exists]
  · rw [pathExists_some, h1, h2]
    rfl

/-- Witness for C9 at a concrete filesystem. -/
theorem c9_pathExists_total_witness :
    let fsW : FileSys :=
      { osPathExists := fun p => p == "/bin/ls"
        shutilWhich := fun _ => none
        osWalk := fun _ => [] }
    pathExists fsW (some "") = false ∧
      (pathExists fsW (some "/bin/ls") = true ↔ specValidCandidate fsW "/bin/ls") := by
  intro fsW
  exact ⟨(c9_pathExists_total fsW).2.2 rfl rfl, (c9_pathExists_total fsW).2.1 "/bin/ls"⟩

/-! ## Claim C10 — cache location undefined outside windows/unix -/

/-- C10: the `toolsPaths.json` location is only defined for the `windows` and
`unix` OS families: when `detectOS` yields `wsl` (posix with a
`...microsoft` release) or `java`, or when `os.name` is unrecognized, the
computation raises `UnboundLocalError` (a local read before assignment) instead
of completing or failing with a diagnostic; for `nt` and non-WSL `posix` it
completes. -/
theorem c10_toolsPathsLocation_undefined_families :
    (∀ r a h, pyEndsWith (pyLower r) "microsoft" = true →
      detectOS "posix" r = .ok "wsl" ∧
      toolsPathsLocation "posix" r a h = .error .unboundLocal) ∧
    (∀ r a h, detectOS "java" r = .ok "java" ∧
      toolsPathsLocation "java" r a h = .error .unboundLocal) ∧
    (∀ osName r a h, osName ≠ "nt" → osName ≠ "java" → osName ≠ "posix" →
      toolsPathsLocation osName r a h = .error .unboundLocal) ∧
    (∀ r a h, ∃ s, toolsPathsLocation "nt" r a h = .ok s) ∧
    (∀ r a h, pyEndsWith (pyLower r) "microsoft" = false →
      ∃ s, toolsPathsLocation "posix" r a h = .ok s) := by
  refine ⟨fun r a h hr => ⟨?_, ?_⟩, fun r a h => ⟨?_, ?_⟩,
    fun osName r a h h1 h2 h3 => ?_, fun r a h => ?_, fun r a h hr => ?_⟩
  · simp [detectOS, hr]
  · simp [toolsPathsLocation, detectOS, hr, vsCodeSettingsFolderPath, Bind.bind, Except.bind]
  · simp [detectOS]
  · simp [toolsPathsLocation, detectOS, vsCodeSettingsFolderPath, Bind.bind, Except.bind]
  · simp [toolsPathsLocation, detectOS, h1, h2, h3, Bind.bind, Except.bind]
  · refine ⟨pathWithForwardSlashes (posixJoin (a ++ "\\Code\\User\\") "toolsPaths.json"), ?_⟩
    simp [toolsPathsLocation, detectOS, vsCodeSettingsFolderPath, Bind.bind, Except.bind,
      pure, Except.pure]
  · refine ⟨pathWithForwardSlashes (posixJoin (h ++ "/.config/Code/User/") "toolsPaths.json"), ?_⟩
    simp [toolsPathsLocation, detectOS, hr, vsCodeSettingsFolderPath, Bind.bind, Except.bind,
      pure, Except.pure]

/-- Witness for C10: concrete WSL release string, unknown OS name, and a
defined family. -/
theorem c10_toolsPathsLocation_undefined_families_witness :
    toolsPathsLocation "posix" "4.4.0-19041-Microsoft" "C:/AppData" "/home/u" = .error .unboundLocal ∧
    toolsPathsLocation "java" "r" "a" "h" = .error .unboundLocal ∧
    toolsPathsLocation "os2" "r" "a" "h" = .error .unboundLocal ∧
    (∃ s, toolsPathsLocation "nt" "r" "C:/AppData" "/home/u" = .ok s) := by
  refine ⟨?_, ?_, ?_, ?_⟩
  · exact (c10_toolsPathsLocation_undefined_families.1 "4.4.0-19041-Microsoft" "C:/AppData" "/home/u"
      (by decide)).2
  · exact (c10_toolsPathsLocation_undefined_families.2.1 "r" "a" "h").2
  · exact c10_toolsPathsLocation_undefined_families.2.2.1 "os2" "r" "a" "h" (by decide) (by decide) (by decide)
  · exact c10_toolsPathsLocation_undefined_families.2.2.2.1 "r" "C:/AppData" "/home/u"

/-! ## Claim C3 — corrupt cache file is deleted and load reports absent -/

/-- C3: whenever the `toolsPaths.json` file exists but fails to parse as JSON,
`checkToolsPathFile` returns the absent result (`False`) rather than raising,
and afterwards the on-disk cache file no longer exists. -/
theorem c3_corrupt_cache_deleted (f : Option FileContent) (h : f = some .corrupt) :
    (checkToolsPathFile f).1 = false ∧ (checkToolsPathFile f).2 = none := by
  subst h
  exact ⟨rfl, rfl⟩

/-- Witness for C3 at the concrete corrupt-file state. -/
theorem c3_corrupt_cache_deleted_witness :
    (checkToolsPathFile (some .corrupt)).1 = false ∧
    (checkToolsPathFile (some .corrupt)).2 = none :=
  c3_corrupt_cache_deleted (some .corrupt) rfl

/-! ## Document lemmas -/

/-- Reading a key just written returns the written value. -/
theorem dGet_dSet_self (d : Doc) (k : String) (v : JVal) : dGet (dSet d k v) k = some v := by
  induction d with
  | nil => simp [dSet, dGet]
  | cons e es ih =>
    by_cases h : e.1 = k
    · simp [dSet, h, dGet]
    · simp [dSet, h, dGet, ih]

/-- Writing one key leaves every other key unchanged. -/
theorem dGet_dSet_ne (d : Doc) (k j : String) (v : JVal) (h : j ≠ k) :
    dGet (dSet d k v) j = dGet d j := by
  induction d with
  | nil => simp [dSet, dGet, Ne.symm h]
  | cons e es ih =>
    by_cases hek : e.1 = k
    · simp [dSet, dGet, hek, Ne.symm h]
    · by_cases hej : e.1 = j <;> simp [dSet, dGet, hek, hej, ih, h]

/-- Writing back the value a key already holds is a no-op on the document. -/
theorem dSet_eq_self {d : Doc} {k : String} {v : JVal} (h : dGet d k = some v) :
    dSet d k v = d := by
  induction d with
  | nil => simp [dGet] at h
  | cons e es ih =>
    obtain ⟨a, b⟩ := e
    by_cases hek : a = k
    · subst hek
      simp [dGet] at h
      simp [dSet, h]
    · simp [dGet, hek] at h
      simp [dSet, hek, ih h]

/-- Writing the same key-value twice equals writing it once. -/
theorem dSet_dSet_same (d : Doc) (k : String) (v : JVal) :
    dSet (dSet d k v) k v = dSet d k v :=
  dSet_eq_self (dGet_dSet_self d k v)

/-- `List.find?` locates the head of a singleton filter result. -/
theorem find?_of_filter_singleton {α : Type} (p : α → Bool) (l : List α) (x : α)
    (xs : List α) (h : l.filter p = x :: xs) : l.find? p = some x := by
  induction l with
  | nil => simp at h
  | cons a as ih =>
    by_cases hp : p a
    · rw [List.filter_cons_of_pos hp] at h
      rw [List.find?_cons_of_pos _ hp]
      exact congrArg some (List.head_eq_of_cons_eq h)
    · rw [List.filter_cons_of_neg (by simpa using hp)] at h
      rw [List.find?_cons_of_neg _ (by simpa using hp)]
      exact ih h

/-- `List.find?` finds nothing when the filter is empty. -/
theorem find?_of_filter_nil {α : Type} (p : α → Bool) (l : List α)
    (h : l.filter p = []) : l.find? p = none := by
  rw [List.find?_eq_none]
  intro x hx
  exact (List.filter_eq_nil_iff.mp h) x hx

/-! ## Engine lemmas -/

/-- The empty tool loop returns its state. -/
theorem loopNil (ctx : Ctx) (request : Bool) (st out : Doc × List String) :
    verifyToolsLoop ctx request [] st = .ok out ↔ st = out := by
  rw [verifyToolsLoop]
  constructor
  · intro h
    simpa using h
  · intro h
    rw [h]

/-- One tool-loop step succeeds through an intermediate state. -/
theorem loopStep (ctx : Ctx) (request : Bool) (t : String × String × String × Bool)
    (ts : List (String × String × String × Bool)) (st out : Doc × List String) :
    verifyToolsLoop ctx request (t :: ts) st = .ok out ↔
      ∃ st1, processTool ctx request t st = .ok st1 ∧
        verifyToolsLoop ctx request ts st1 = .ok out := by
  rw [verifyToolsLoop]
  cases e : processTool ctx request t st <;> simp [e]

/-- A path returned by `getUserPath` passed the probe. -/
theorem getUserPath_valid {fs : FileSys} {inp : List String} {p : String} {rest : List String}
    (h : getUserPath fs inp = .ok (p, rest)) : pathExists fs (some p) = true := by
  induction inp with
  | nil => exact absurd h (by simp [getUserPath])
  | cons l tl ih =>
    simp only [getUserPath] at h
    split at h
    case isTrue hc =>
      obtain ⟨h1, h2⟩ := by simpa using h
      exact h1 ▸ hc
    case isFalse hc => exact ih h

/-- A path returned by `updatePath` passed the probe (given a wellformed
`shutil.which`). -/
theorem updatePath_valid {fs : FileSys} (hwf : FileSys.WhichValid fs)
    {path pn df : String} {inp : List String} {p : String} {rest : List String}
    (h : updatePath fs path pn df inp = .ok (p, rest)) : pathExists fs (some p) = true := by
  rw [updatePath] at h
  split at h
  case isTrue hdf =>
    cases hyn : getYesNoAnswer inp with
    | error e =>
      rw [hyn] at h
      exact absurd h (by simp)
    | ok br =>
      obtain ⟨b, rest1⟩ := br
      rw [hyn] at h
      cases b
      · exact getUserPath_valid h
      · obtain ⟨h1, h2⟩ := by simpa using h
        subst h1
        cases hw : fs.shutilWhich df with
        | none => simpa [hw] using hdf
        | some w =>
          rw [pathExists_some]
          simp [hw, hwf df w hw]
  case isFalse hdf => exact getUserPath_valid h

/-- A path returned by `getPython3Path` passed the probe. -/
theorem getPython3Path_valid {fs : FileSys} {osIs : String} {inp : List String}
    {p : String} {rest : List String} (h : getPython3Path fs osIs inp = .ok (p, rest)) :
    pathExists fs (some p) = true := by
  rw [getPython3Path] at h
  split at h
  case isTrue hc =>
    obtain ⟨h1, h2⟩ := by simpa using h
    exact h1 ▸ hc
  case isFalse hc => exact getUserPath_valid h

/-- On success the `try` block leaves the tool's field holding a probed-valid
string. -/
theorem processToolTry_key {fs : FileSys} (hwf : FileSys.WhichValid fs)
    {request : Bool} {path pn df : String} {u0 : Bool} {bd : Doc} {inp : List String}
    {bd' : Doc} {upd : Bool} {inp' : List String}
    (h : processToolTry fs request path pn df u0 bd inp = .ok ((bd', upd), inp')) :
    ∃ s, dGet bd' path = some (.str s) ∧ pathExists fs (some s) = true := by
  rw [processToolTry] at h
  cases hget : dGet bd path with
  | some v =>
    cases v with
    | str s =>
      rw [hget] at h
      simp only [] at h
      by_cases hex : pathExists fs (some s) = true
      · rw [if_pos hex] at h
        cases request with
        | false =>
          obtain ⟨⟨h1, h2⟩, h3⟩ := by simpa using h
          exact ⟨s, h1 ▸ hget, hex⟩
        | true =>
          rw [if_pos rfl] at h
          cases hyn : getYesNoAnswer inp with
          | error e =>
            rw [hyn] at h
            exact absurd h (by simp)
          | ok br =>
            obtain ⟨b, rest1⟩ := br
            cases b
            · rw [hyn] at h
              obtain ⟨⟨h1, h2⟩, h3⟩ := by simpa using h
              exact ⟨s, h1 ▸ hget, hex⟩
            · rw [hyn] at h
              simp only [] at h
              cases hup : updatePath fs path pn df rest1 with
              | error e =>
                rw [hup] at h
                exact absurd h (by simp)
              | ok pr =>
                obtain ⟨p, rest2⟩ := pr
                rw [hup] at h
                obtain ⟨⟨h1, h2⟩, h3⟩ := by simpa using h
                exact ⟨p, h1 ▸ dGet_dSet_self bd path (.str p), updatePath_valid hwf hup⟩
      · rw [if_neg hex] at h
        cases hup : updatePath fs path pn df inp with
        | error e =>
          rw [hup] at h
          exact absurd h (by simp)
        | ok pr =>
          obtain ⟨p, rest2⟩ := pr
          rw [hup] at h
          obtain ⟨⟨h1, h2⟩, h3⟩ := by simpa using h
          exact ⟨p, h1 ▸ dGet_dSet_self bd path (.str p), updatePath_valid hwf hup⟩
    | arr a =>
      rw [hget] at h
      simp only [] at h
      cases hup : updatePath fs path pn df inp with
      | error e =>
        rw [hup] at h
        exact absurd h (by simp)
      | ok pr =>
        obtain ⟨p, rest2⟩ := pr
        rw [hup] at h
        obtain ⟨⟨h1, h2⟩, h3⟩ := by simpa using h
        exact ⟨p, h1 ▸ dGet_dSet_self bd path (.str p), updatePath_valid hwf hup⟩
  | none =>
    rw [hget] at h
    simp only [] at h
    cases hup : updatePath fs path pn df inp with
    | error e =>
      rw [hup] at h
      exact absurd h (by simp)
    | ok pr =>
      obtain ⟨p, rest2⟩ := pr
      rw [hup] at h
      obtain ⟨⟨h1, h2⟩, h3⟩ := by simpa using h
      exact ⟨p, h1 ▸ dGet_dSet_self bd path (.str p), updatePath_valid hwf hup⟩

/-- On success the checked iteration leaves the tool's field holding a
probed-valid string. -/
theorem processToolChecked_key {fs : FileSys} (hwf : FileSys.WhichValid fs)
    {request : Bool} {path pn df : String} {u0 : Bool} {bd : Doc} {inp : List String}
    {bd' : Doc} {upd : Bool} {inp' : List String}
    (h : processToolChecked fs request path pn df u0 bd inp = .ok ((bd', upd), inp')) :
    ∃ s, dGet bd' path = some (.str s) ∧ pathExists fs (some s) = true := by
  rw [processToolChecked] at h
  cases htry : processToolTry fs request path pn df u0 bd inp with
  | ok r =>
    rw [htry] at h
    obtain ⟨⟨bd1, upd1⟩, inp1⟩ := r
    obtain ⟨⟨h1, h2⟩, h3⟩ := by simpa using h
    subst h1
    exact processToolTry_key hwf htry
  | error e =>
    rw [htry] at h
    cases e with
    | exhausted =>
      cases hup : updatePath fs path pn df [] with
      | error e2 =>
        rw [hup] at h
        exact absurd h (by simp)
      | ok pr =>
        obtain ⟨p, rest2⟩ := pr
        rw [hup] at h
        obtain ⟨⟨h1, h2⟩, h3⟩ := by simpa using h
        exact ⟨p, h1 ▸ dGet_dSet_self bd path (.str p), updatePath_valid hwf hup⟩
    | fatal m => exact absurd h (by simp)
    | unboundLocal => exact absurd h (by simp)
    | pyException => exact absurd h (by simp)

/-- The `try` block writes at most the tool's own field. -/
theorem processToolTry_shape {fs : FileSys} {request : Bool} {path pn df : String}
    {u0 : Bool} {bd : Doc} {inp : List String} {bd' : Doc} {upd : Bool} {inp' : List String}
    (h : processToolTry fs request path pn df u0 bd inp = .ok ((bd', upd), inp')) :
    bd' = bd ∨ ∃ p, bd' = dSet bd path (.str p) := by
  rw [processToolTry] at h
  cases hget : dGet bd path with
  | some v =>
    cases v with
    | str s =>
      rw [hget] at h
      simp only [] at h
      by_cases hex : pathExists fs (some s) = true
      · rw [if_pos hex] at h
        cases request with
        | false =>
          obtain ⟨⟨h1, h2⟩, h3⟩ := by simpa using h
          exact Or.inl h1.symm
        | true =>
          rw [if_pos rfl] at h
          cases hyn : getYesNoAnswer inp with
          | error e =>
            rw [hyn] at h
            exact absurd h (by simp)
          | ok br =>
            obtain ⟨b, rest1⟩ := br
            cases b
            · rw [hyn] at h
              obtain ⟨⟨h1, h2⟩, h3⟩ := by simpa using h
              exact Or.inl h1.symm
            · rw [hyn] at h
              simp only [] at h
              cases hup : updatePath fs path pn df rest1 with
              | error e =>
                rw [hup] at h
                exact absurd h (by simp)
              | ok pr =>
                obtain ⟨p, r2⟩ := pr
                rw [hup] at h
                obtain ⟨⟨h1, h2⟩, h3⟩ := by simpa using h
                exact Or.inr ⟨p, h1.symm⟩
      · rw [if_neg hex] at h
        cases hup : updatePath fs path pn df inp with
        | error e =>
          rw [hup] at h
          exact absurd h (by simp)
        | ok pr =>
          obtain ⟨p, r2⟩ := pr
          rw [hup] at h
          obtain ⟨⟨h1, h2⟩, h3⟩ := by simpa using h
          exact Or.inr ⟨p, h1.symm⟩
    | arr a =>
      rw [hget] at h
      simp only [] at h
      cases hup : updatePath fs path pn df inp with
      | error e =>
        rw [hup] at h
        exact absurd h (by simp)
      | ok pr =>
        obtain ⟨p, r2⟩ := pr
        rw [hup] at h
        obtain ⟨⟨h1, h2⟩, h3⟩ := by simpa using h
        exact Or.inr ⟨p, h1.symm⟩
  | none =>
    rw [hget] at h
    simp only [] at h
    cases hup : updatePath fs path pn df inp with
    | error e =>
      rw [hup] at h
      exact absurd h (by simp)
    | ok pr =>
      obtain ⟨p, r2⟩ := pr
      rw [hup] at h
      obtain ⟨⟨h1, h2⟩, h3⟩ := by simpa using h
      exact Or.inr ⟨p, h1.symm⟩

/-- The checked iteration writes at most the tool's own field. -/
theorem processToolChecked_shape {fs : FileSys} {request : Bool} {path pn df : String}
    {u0 : Bool} {bd : Doc} {inp : List String} {bd' : Doc} {upd : Bool} {inp' : List String}
    (h : processToolChecked fs request path pn df u0 bd inp = .ok ((bd', upd), inp')) :
    bd' = bd ∨ ∃ p, bd' = dSet bd path (.str p) := by
  rw [processToolChecked] at h
  cases htry : processToolTry fs request path pn df u0 bd inp with
  | ok r =>
    rw [htry] at h
    obtain ⟨⟨bd1, upd1⟩, inp1⟩ := r
    obtain ⟨⟨h1, h2⟩, h3⟩ := by simpa using h
    subst h1
    exact processToolTry_shape htry
  | error e =>
    rw [htry] at h
    cases e with
    | exhausted =>
      cases hup : updatePath fs path pn df [] with
      | error e2 =>
        rw [hup] at h
        exact absurd h (by simp)
      | ok pr =>
        obtain ⟨p, r2⟩ := pr
        rw [hup] at h
        obtain ⟨⟨h1, h2⟩, h3⟩ := by simpa using h
        exact Or.inr ⟨p, h1.symm⟩
    | fatal m => exact absurd h (by simp)
    | unboundLocal => exact absurd h (by simp)
    | pyException => exact absurd h (by simp)

/-- The derived-field block writes at most the tool's derived key. -/
theorem processDerived_frame {ctx : Ctx} {path : String} {bd : Doc} {upd : Bool}
    {inp : List String} {bd2 : Doc} {inp2 : List String}
    (h : processDerived ctx path bd upd inp = .ok (bd2, inp2)) {j : String}
    (hj : derivedKeyOf path ≠ some j) : dGet bd2 j = dGet bd j := by
  rw [processDerived] at h
  cases upd with
  | false =>
    obtain ⟨h1, h2⟩ := by simpa using h
    rw [← h1]
  | true =>
    rw [if_pos rfl] at h
    by_cases h1 : path = BStr.gccExePath
    · subst h1
      rw [if_pos rfl] at h
      cases hg : dGet bd BStr.gccExePath with
      | some v =>
        cases v with
        | str g =>
          rw [hg] at h
          simp only [] at h
          cases hi : getGccIncludePath ctx.fs g with
          | ok inc =>
            rw [hi] at h
            obtain ⟨hb, hinp⟩ := by simpa using h
            rw [← hb]
            exact dGet_dSet_ne _ _ _ _ (fun hjj => hj (by rw [hjj]; rfl))
          | error e =>
            rw [hi] at h
            exact absurd h (by simp)
        | arr a =>
          rw [hg] at h
          exact absurd h (by simp)
      | none =>
        rw [hg] at h
        exact absurd h (by simp)
    · rw [if_neg h1] at h
      by_cases h2 : path = BStr.openOcdPath
      · subst h2
        rw [if_pos rfl] at h
        cases hg : dGet bd BStr.openOcdPath with
        | some v =>
          cases v with
          | str g =>
            rw [hg] at h
            simp only [] at h
            cases hi : getOpenOcdConfig ctx.fs g inp with
            | ok pr =>
              obtain ⟨cfg, rest⟩ := pr
              rw [hi] at h
              obtain ⟨hb, hinp⟩ := by simpa using h
              rw [← hb]
              exact dGet_dSet_ne _ _ _ _ (fun hjj => hj (by rw [hjj]; rfl))
            | error e =>
              rw [hi] at h
              exact absurd h (by simp)
          | arr a =>
            rw [hg] at h
            exact absurd h (by simp)
        | none =>
          rw [hg] at h
          exact absurd h (by simp)
      · rw [if_neg h2] at h
        by_cases h3 : path = BStr.stm32SvdPath
        · subst h3
          rw [if_pos rfl] at h
          cases hg : dGet bd BStr.stm32SvdPath with
          | some v =>
            cases v with
            | str g =>
              rw [hg] at h
              simp only [] at h
              cases hi : getStm32SvdFile ctx.fs g inp with
              | ok pr =>
                obtain ⟨f, rest⟩ := pr
                rw [hi] at h
                obtain ⟨hb, hinp⟩ := by simpa using h
                rw [← hb]
                exact dGet_dSet_ne _ _ _ _ (fun hjj => hj (by rw [hjj]; rfl))
              | error e =>
                rw [hi] at h
                exact absurd h (by simp)
            | arr a =>
              rw [hg] at h
              exact absurd h (by simp)
          | none =>
            rw [hg] at h
            exact absurd h (by simp)
        · rw [if_neg h3] at h
          obtain ⟨hb, hinp⟩ := by simpa using h
          rw [← hb]

/-- One tool iteration writes at most the tool's field, its derived field, and
`pythonPath`. -/
theorem processTool_frame {ctx : Ctx} {request : Bool} {k pn df : String} {u : Bool}
    {st st'' : Doc × List String} (h : processTool ctx request (k, pn, df, u) st = .ok st'')
    {j : String} (hj1 : j ≠ k) (hj2 : derivedKeyOf k ≠ some j)
    (hj3 : j ≠ BStr.pythonPath) : dGet st''.1 j = dGet st.1 j := by
  obtain ⟨bd'', inp''⟩ := st''
  rw [processTool] at h
  cases hc : processToolChecked ctx.fs request k pn df u st.1 st.2 with
  | error e =>
    rw [hc] at h
    exact absurd h (by simp)
  | ok r =>
    obtain ⟨⟨bd1, upd⟩, inp1⟩ := r
    rw [hc] at h
    simp only [] at h
    cases hd : processDerived ctx k bd1 upd inp1 with
    | error e =>
      rw [hd] at h
      exact absurd h (by simp)
    | ok pr =>
      obtain ⟨bd2, inp2⟩ := pr
      rw [hd] at h
      simp only [] at h
      cases hp : getPython3Path ctx.fs ctx.osIs inp2 with
      | error e =>
        rw [hp] at h
        exact absurd h (by simp)
      | ok pp =>
        obtain ⟨py, inp3⟩ := pp
        rw [hp] at h
        obtain ⟨h1, h2⟩ := by simpa using h
        rw [← h1]
        rw [dGet_dSet_ne _ _ _ _ hj3]
        rw [processDerived_frame hd hj2]
        rcases processToolChecked_shape hc with hsh | ⟨p, hsh⟩
        · rw [hsh]
        · rw [hsh, dGet_dSet_ne _ _ _ _ hj1]

/-- A tool whose stored value passes the probe, under `request = False`, is a
no-op apart from the unconditional `pythonPath` recomputation. -/
theorem processTool_valid_noop (ctx : Ctx) (k pn df : String)
    (st : Doc × List String) (s : String)
    (hval : dGet st.1 k = some (.str s)) (hex : pathExists ctx.fs (some s) = true) :
    processTool ctx false (k, pn, df, false) st =
      match getPython3Path ctx.fs ctx.osIs st.2 with
      | .ok pr => .ok (dSet st.1 BStr.pythonPath (.str pr.1), pr.2)
      | .error e => .error e := by
  rw [processTool, processToolChecked, processToolTry]
  simp only [] 
  rw [hval]
  simp only [hex, if_true, Bool.false_eq_true, if_false]
  simp only [processDerived, Bool.false_eq_true, if_false]
  cases hp : getPython3Path ctx.fs ctx.osIs st.2 with
  | ok pr =>
    obtain ⟨py, rest⟩ := pr
    rfl
  | error e => rfl

/-- After one tool iteration the tool's field holds a probed-valid string. -/
theorem processTool_key {ctx : Ctx} (hwf : FileSys.WhichValid ctx.fs) {request : Bool}
    {k pn df : String} {u : Bool} {st st'' : Doc × List String}
    (h : processTool ctx request (k, pn, df, u) st = .ok st'')
    (hne1 : derivedKeyOf k ≠ some k) (hne2 : k ≠ BStr.pythonPath) :
    ∃ s, dGet st''.1 k = some (.str s) ∧ pathExists ctx.fs (some s) = true := by
  obtain ⟨bd'', inp''⟩ := st''
  rw [processTool] at h
  cases hc : processToolChecked ctx.fs request k pn df u st.1 st.2 with
  | error e =>
    rw [hc] at h
    exact absurd h (by simp)
  | ok r =>
    obtain ⟨⟨bd1, upd⟩, inp1⟩ := r
    rw [hc] at h
    simp only [] at h
    cases hd : processDerived ctx k bd1 upd inp1 with
    | error e =>
      rw [hd] at h
      exact absurd h (by simp)
    | ok pr =>
      obtain ⟨bd2, inp2⟩ := pr
      rw [hd] at h
      simp only [] at h
      cases hp : getPython3Path ctx.fs ctx.osIs inp2 with
      | error e =>
        rw [hp] at h
        exact absurd h (by simp)
      | ok pp =>
        obtain ⟨py, inp3⟩ := pp
        rw [hp] at h
        obtain ⟨h1, h2⟩ := by simpa using h
        obtain ⟨s, hs, hv⟩ := processToolChecked_key hwf hc
        refine ⟨s, ?_, hv⟩
        rw [← h1, dGet_dSet_ne _ _ _ _ hne2, processDerived_frame hd hne1, hs]

/-- A valid tool under `request = False` preserves every non-`pythonPath`
field through its iteration. -/
theorem processTool_noop_preserve {ctx : Ctx} {k pn df : String}
    {st st'' : Doc × List String} {s : String}
    (hval : dGet st.1 k = some (.str s)) (hex : pathExists ctx.fs (some s) = true)
    (h : processTool ctx false (k, pn, df, false) st = .ok st'') {j : String}
    (hj : j ≠ BStr.pythonPath) : dGet st''.1 j = dGet st.1 j := by
  obtain ⟨bd'', inp''⟩ := st''
  rw [processTool_valid_noop ctx k pn df st s hval hex] at h
  cases hpy : getPython3Path ctx.fs ctx.osIs st.2 with
  | ok pr =>
    rw [hpy] at h
    obtain ⟨h1, h2⟩ := by simpa using h
    rw [← h1, dGet_dSet_ne _ _ _ _ hj]
  | error e =>
    rw [hpy] at h
    exact absurd h (by simp)

/-! ## Claim C2 — reconciliation never returns an invalid tool path -/

/-- C2: for every tracked tool, if reconciliation (`verifyExistingPaths`)
returns at all, the returned descriptor holds a value for that tool that
passes the existence probe — in particular a tool whose stored path failed the
probe at entry cannot come back still failing (the run otherwise ends in a
fatal `printAndQuit`, an uncaught exception, or blocks forever on input). -/
theorem c2_reconciliation_repairs (ctx : Ctx) (hwf : FileSys.WhichValid ctx.fs)
    (bd : Doc) (request : Bool) (inp : List String) (bd' : Doc) (inp' : List String)
    (t : String × String × String × Bool) (ht : t ∈ toolsList ctx.workspacePath)
    (hfail : ¬ ∃ s, dGet bd t.1 = some (.str s) ∧ pathExists ctx.fs (some s) = true)
    (h : verifyExistingPaths ctx bd request inp = .ok (bd', inp')) :
    ∃ s, dGet bd' t.1 = some (.str s) ∧ pathExists ctx.fs (some s) = true := by
  rw [verifyExistingPaths, toolsList] at h
  obtain ⟨st1, e1, h⟩ := (loopStep _ _ _ _ _ _).mp h
  obtain ⟨st2, e2, h⟩ := (loopStep _ _ _ _ _ _).mp h
  obtain ⟨st3, e3, h⟩ := (loopStep _ _ _ _ _ _).mp h
  obtain ⟨st4, e4, h⟩ := (loopStep _ _ _ _ _ _).mp h
  have hst4 : st4 = (bd', inp') := (loopNil _ _ _ _).mp h
  subst hst4
  simp only [toolsList, List.mem_cons, List.not_mem_nil, or_false] at ht
  rcases ht with rfl | rfl | rfl | rfl
  · obtain ⟨s, hs, hv⟩ := processTool_key hwf e1 (by decide) (by decide)
    have p2 : dGet st2.1 BStr.gccExePath = dGet st1.1 BStr.gccExePath :=
      processTool_frame e2 (by decide) (by decide) (by decide)
    have p3 : dGet st3.1 BStr.gccExePath = dGet st2.1 BStr.gccExePath :=
      processTool_frame e3 (by decide) (by decide) (by decide)
    have p4 : dGet bd' BStr.gccExePath = dGet st3.1 BStr.gccExePath :=
      processTool_frame e4 (by decide) (by decide) (by decide)
    exact ⟨s, by rw [p4, p3, p2]; exact hs, hv⟩
  · obtain ⟨s, hs, hv⟩ := processTool_key hwf e2 (by decide) (by decide)
    have p3 : dGet st3.1 BStr.buildToolsPath = dGet st2.1 BStr.buildToolsPath :=
      processTool_frame e3 (by decide) (by decide) (by decide)
    have p4 : dGet bd' BStr.buildToolsPath = dGet st3.1 BStr.buildToolsPath :=
      processTool_frame e4 (by decide) (by decide) (by decide)
    exact ⟨s, by rw [p4, p3]; exact hs, hv⟩
  · obtain ⟨s, hs, hv⟩ := processTool_key hwf e3 (by decide) (by decide)
    have p4 : dGet bd' BStr.openOcdPath = dGet st3.1 BStr.openOcdPath :=
      processTool_frame e4 (by decide) (by decide) (by decide)
    exact ⟨s, by rw [p4]; exact hs, hv⟩
  · obtain ⟨s, hs, hv⟩ := processTool_key hwf e4 (by decide) (by decide)
    exact ⟨s, hs, hv⟩

/-! ## Claim C8 — valid paths are returned untouched when `request=False` -/

/-- A tool whose stored value passes the probe keeps that value (and its
derived field) through a whole `request = False` reconciliation. -/
theorem verify_keep (ctx : Ctx) (bd : Doc) (inp : List String) (bd' : Doc)
    (inp' : List String) (t : String × String × String × Bool) (s : String)
    (ht : t ∈ toolsList ctx.workspacePath)
    (hval : dGet bd t.1 = some (.str s)) (hex : pathExists ctx.fs (some s) = true)
    (h : verifyExistingPaths ctx bd false inp = .ok (bd', inp')) :
    dGet bd' t.1 = some (.str s) ∧
      ∀ dk, derivedKeyOf t.1 = some dk → dGet bd' dk = dGet bd dk := by
  rw [verifyExistingPaths, toolsList] at h
  obtain ⟨st1, e1, h⟩ := (loopStep _ _ _ _ _ _).mp h
  obtain ⟨st2, e2, h⟩ := (loopStep _ _ _ _ _ _).mp h
  obtain ⟨st3, e3, h⟩ := (loopStep _ _ _ _ _ _).mp h
  obtain ⟨st4, e4, h⟩ := (loopStep _ _ _ _ _ _).mp h
  have hst4 : st4 = (bd', inp') := (loopNil _ _ _ _).mp h
  subst hst4
  simp only [toolsList, List.mem_cons, List.not_mem_nil, or_false] at ht
  rcases ht with rfl | rfl | rfl | rfl
  · have q1 : ∀ j, j ≠ BStr.pythonPath → dGet st1.1 j = dGet bd j :=
      fun j hj => processTool_noop_preserve hval hex e1 hj
    have k2 : dGet st2.1 BStr.gccExePath = dGet st1.1 BStr.gccExePath :=
      processTool_frame e2 (by decide) (by decide) (by decide)
    have k3 : dGet st3.1 BStr.gccExePath = dGet st2.1 BStr.gccExePath :=
      processTool_frame e3 (by decide) (by decide) (by decide)
    have k4 : dGet bd' BStr.gccExePath = dGet st3.1 BStr.gccExePath :=
      processTool_frame e4 (by decide) (by decide) (by decide)
    have d2 : dGet st2.1 BStr.gccInludePath = dGet st1.1 BStr.gccInludePath :=
      processTool_frame e2 (by decide) (by decide) (by decide)
    have d3 : dGet st3.1 BStr.gccInludePath = dGet st2.1 BStr.gccInludePath :=
      processTool_frame e3 (by decide) (by decide) (by decide)
    have d4 : dGet bd' BStr.gccInludePath = dGet st3.1 BStr.gccInludePath :=
      processTool_frame e4 (by decide) (by decide) (by decide)
    refine ⟨by rw [k4, k3, k2, q1 BStr.gccExePath (by decide)]; exact hval, ?_⟩
    intro dk hdk
    simp only [] at hdk
    have hdv : derivedKeyOf BStr.gccExePath = some BStr.gccInludePath := by decide
    rw [hdv] at hdk
    obtain rfl := Option.some.inj hdk
    rw [d4, d3, d2, q1 BStr.gccInludePath (by decide)]
  · have q2 : ∀ j, j ≠ BStr.pythonPath → dGet st2.1 j = dGet st1.1 j := by
      intro j hj
      refine processTool_noop_preserve ?_ hex e2 hj
      rw [processTool_frame e1 (by decide) (by decide) (by decide)]
      exact hval
    have k1 : dGet st1.1 BStr.buildToolsPath = dGet bd BStr.buildToolsPath :=
      processTool_frame e1 (by decide) (by decide) (by decide)
    have k3 : dGet st3.1 BStr.buildToolsPath = dGet st2.1 BStr.buildToolsPath :=
      processTool_frame e3 (by decide) (by decide) (by decide)
    have k4 : dGet bd' BStr.buildToolsPath = dGet st3.1 BStr.buildToolsPath :=
      processTool_frame e4 (by decide) (by decide) (by decide)
    refine ⟨by rw [k4, k3, q2 BStr.buildToolsPath (by decide), k1]; exact hval, ?_⟩
    intro dk hdk
    simp only [] at hdk
    have hdv : derivedKeyOf BStr.buildToolsPath = none := by decide
    rw [hdv] at hdk
    exact Option.noConfusion hdk
  · have hv2 : dGet st2.1 BStr.openOcdPath = some (.str s) := by
      rw [processTool_frame e2 (by decide) (by decide) (by decide),
        processTool_frame e1 (by decide) (by decide) (by decide)]
      exact hval
    have q3 : ∀ j, j ≠ BStr.pythonPath → dGet st3.1 j = dGet st2.1 j :=
      fun j hj => processTool_noop_preserve hv2 hex e3 hj
    have k4 : dGet bd' BStr.openOcdPath = dGet st3.1 BStr.openOcdPath :=
      processTool_frame e4 (by decide) (by decide) (by decide)
    have d1 : dGet st1.1 BStr.openOcdConfig = dGet bd BStr.openOcdConfig :=
      processTool_frame e1 (by decide) (by decide) (by decide)
    have d2 : dGet st2.1 BStr.openOcdConfig = dGet st1.1 BStr.openOcdConfig :=
      processTool_frame e2 (by decide) (by decide) (by decide)
    have d4 : dGet bd' BStr.openOcdConfig = dGet st3.1 BStr.openOcdConfig :=
      processTool_frame e4 (by decide) (by decide) (by decide)
    refine ⟨by rw [k4, q3 BStr.openOcdPath (by decide)]; exact hv2, ?_⟩
    intro dk hdk
    simp only [] at hdk
    have hdv : derivedKeyOf BStr.openOcdPath = some BStr.openOcdConfig := by decide
    rw [hdv] at hdk
    obtain rfl := Option.some.inj hdk
    rw [d4, q3 BStr.openOcdConfig (by decide), d2, d1]
  · have hv3 : dGet st3.1 BStr.stm32SvdPath = some (.str s) := by
      rw [processTool_frame e3 (by decide) (by decide) (by decide),
        processTool_frame e2 (by decide) (by decide) (by decide),
        processTool_frame e1 (by decide) (by decide) (by decide)]
      exact hval
    have q4 : ∀ j, j ≠ BStr.pythonPath → dGet bd' j = dGet st3.1 j :=
      fun j hj => processTool_noop_preserve hv3 hex e4 hj
    have d1 : dGet st1.1 BStr.stm32SvdFile = dGet bd BStr.stm32SvdFile :=
      processTool_frame e1 (by decide) (by decide) (by decide)
    have d2 : dGet st2.1 BStr.stm32SvdFile = dGet st1.1 BStr.stm32SvdFile :=
      processTool_frame e2 (by decide) (by decide) (by decide)
    have d3 : dGet st3.1 BStr.stm32SvdFile = dGet st2.1 BStr.stm32SvdFile :=
      processTool_frame e3 (by decide) (by decide) (by decide)
    refine ⟨by rw [q4 BStr.stm32SvdPath (by decide)]; exact hv3, ?_⟩
    intro dk hdk
    simp only [] at hdk
    have hdv : derivedKeyOf BStr.stm32SvdPath = some BStr.stm32SvdFile := by decide
    rw [hdv] at hdk
    obtain rfl := Option.some.inj hdk
    rw [q4 BStr.stm32SvdFile (by decide), d3, d2, d1]

/-- A valid tool under `request = False`, with python itself valid, is exactly
the `pythonPath` refresh: no prompt, no other recomputation. -/
theorem processTool_valid_run (ctx : Ctx) (k pn df : String) (bd : Doc)
    (inp : List String) (s : String) (hval : dGet bd k = some (.str s))
    (hex : pathExists ctx.fs (some s) = true)
    (hpy : pathExists ctx.fs (some (pythonCmd ctx.osIs)) = true) :
    processTool ctx false (k, pn, df, false) (bd, inp)
      = .ok (dSet bd BStr.pythonPath (.str (pythonCmd ctx.osIs)), inp) := by
  rw [processTool_valid_noop ctx k pn df (bd, inp) s hval hex, getPython3Path, if_pos hpy]

/-- C8: under `request = False`, a tool whose stored path passes the probe
keeps that exact path in the returned descriptor and its derived field
(compiler header-include directory, debugger config set, or SVD file name) is
returned unchanged; the tool's own iteration performs no prompt and no
recomputation — it is exactly the unconditional `pythonPath` refresh. -/
theorem c8_valid_path_untouched :
    (∀ (ctx : Ctx) (bd : Doc) (inp : List String) (bd' : Doc) (inp' : List String)
      (t : String × String × String × Bool) (s : String),
      t ∈ toolsList ctx.workspacePath →
      dGet bd t.1 = some (.str s) → pathExists ctx.fs (some s) = true →
      verifyExistingPaths ctx bd false inp = .ok (bd', inp') →
      dGet bd' t.1 = some (.str s) ∧
        ∀ dk, derivedKeyOf t.1 = some dk → dGet bd' dk = dGet bd dk) ∧
    (∀ (ctx : Ctx) (t : String × String × String × Bool) (st : Doc × List String) (s : String),
      t.2.2.2 = false →
      dGet st.1 t.1 = some (.str s) → pathExists ctx.fs (some s) = true →
      pathExists ctx.fs (some (pythonCmd ctx.osIs)) = true →
      processTool ctx false t st
        = .ok (dSet st.1 BStr.pythonPath (.str (pythonCmd ctx.osIs)), st.2)) := by
  constructor
  · intro ctx bd inp bd' inp' t s ht hval hex h
    exact verify_keep ctx bd inp bd' inp' t s ht hval hex h
  · intro ctx t st s hu hval hex hpy
    obtain ⟨k, pn, df, u⟩ := t
    simp only [] at hu hval
    subst hu
    obtain ⟨bdst, inpst⟩ := st
    exact processTool_valid_run ctx k pn df bdst inpst s hval hex hpy

/-- `Except` bind on a success. -/
theorem exceptBindOk {α β : Type} (a : α) (f : α → Except PyErr β) :
    (Except.ok a >>= f) = f a := rfl

/-- `Except` bind on a failure. -/
theorem exceptBindErr {α β : Type} (e : PyErr) (f : α → Except PyErr β) :
    ((Except.error e : Except PyErr α) >>= f) = Except.error e := rfl

/-- The cache-overlay fold: on success, overlaid keys carry the cache's
values and all other keys are untouched. -/
theorem addFold_ok (tp : Doc) : ∀ (keys : List String), keys.Nodup → ∀ (bd M : Doc),
    List.foldlM (fun bd k => match dGet tp k with
      | some v => Except.ok (dSet bd k v)
      | none => Except.error PyErr.pyException) bd keys = .ok M →
    (∀ k ∈ keys, dGet M k = dGet tp k) ∧ ∀ k, k ∉ keys → dGet M k = dGet bd k := by
  intro keys
  induction keys with
  | nil =>
    intro hnd bd M h
    rw [List.foldlM_nil] at h
    obtain rfl : bd = M := by simpa [pure, Except.pure] using h
    exact ⟨fun k hk => absurd hk (List.not_mem_nil k), fun k hk => rfl⟩
  | cons k0 ks ih =>
    intro hnd bd M h
    obtain ⟨hk0, hks⟩ := List.nodup_cons.mp hnd
    rw [List.foldlM_cons] at h
    cases hv : dGet tp k0 with
    | none =>
      simp only [hv] at h
      rw [exceptBindErr] at h
      exact absurd h (by simp)
    | some v =>
      simp only [hv] at h
      rw [exceptBindOk] at h
      obtain ⟨ih1, ih2⟩ := ih hks (dSet bd k0 v) M h
      refine ⟨?_, ?_⟩
      · intro k hk
        rcases List.mem_cons.mp hk with rfl | hk2
        · rw [ih2 k hk0, dGet_dSet_self, hv]
        · exact ih1 k hk2
      · intro k hk
        have hkne : k ≠ k0 := fun he => hk (he ▸ List.mem_cons_self k0 ks)
        rw [ih2 k (fun hm => hk (List.mem_cons_of_mem _ hm)), dGet_dSet_ne _ _ _ _ hkne]

/-- The cache-overlay fold writes back only what the document already holds
when cache and document agree: a no-op. -/
theorem addFold_id (tp : Doc) : ∀ (keys : List String) (bd : Doc),
    (∀ k ∈ keys, dGet tp k = dGet bd k ∧ (dGet tp k).isSome) →
    List.foldlM (fun bd k => match dGet tp k with
      | some v => Except.ok (dSet bd k v)
      | none => Except.error PyErr.pyException) bd keys = .ok bd := by
  intro keys
  induction keys with
  | nil =>
    intro bd h
    rw [List.foldlM_nil]
    rfl
  | cons k0 ks ih =>
    intro bd h
    obtain ⟨heq, hsome⟩ := h k0 (List.mem_cons_self k0 ks)
    obtain ⟨v, hv⟩ := Option.isSome_iff_exists.mp hsome
    rw [List.foldlM_cons]
    simp only [hv]
    rw [exceptBindOk, dSet_eq_self (heq.symm.trans hv)]
    exact ih bd (fun k hk => h k (List.mem_cons_of_mem _ hk))

/-- The cache-overlay fold succeeds whenever the cache holds every key. -/
theorem addFold_total (tp : Doc) : ∀ (keys : List String) (bd : Doc),
    (∀ k ∈ keys, (dGet tp k).isSome) →
    ∃ M, List.foldlM (fun bd k => match dGet tp k with
      | some v => Except.ok (dSet bd k v)
      | none => Except.error PyErr.pyException) bd keys = .ok M := by
  intro keys
  induction keys with
  | nil =>
    intro bd h
    exact ⟨bd, by rw [List.foldlM_nil]; rfl⟩
  | cons k0 ks ih =>
    intro bd h
    obtain ⟨v, hv⟩ := Option.isSome_iff_exists.mp (h k0 (List.mem_cons_self k0 ks))
    obtain ⟨M, hM⟩ := ih (dSet bd k0 v) (fun k hk => h k (List.mem_cons_of_mem _ hk))
    refine ⟨M, ?_⟩
    rw [List.foldlM_cons]
    simp only [hv]
    rw [exceptBindOk]
    exact hM

/-- `createUserToolsFile` on a complete document: the written cache mirrors
the document's eight tool fields. -/
theorem createUserToolsFile_spec (V : Doc)
    (hc : ∀ k ∈ userToolsKeys, (dGet V k).isSome) :
    ∃ C, createUserToolsFile V = some C ∧ ∀ k ∈ userToolsKeys, dGet C k = dGet V k := by
  obtain ⟨v1, e1⟩ := Option.isSome_iff_exists.mp (hc BStr.gccExePath (by decide))
  obtain ⟨v2, e2⟩ := Option.isSome_iff_exists.mp (hc BStr.gccInludePath (by decide))
  obtain ⟨v3, e3⟩ := Option.isSome_iff_exists.mp (hc BStr.buildToolsPath (by decide))
  obtain ⟨v4, e4⟩ := Option.isSome_iff_exists.mp (hc BStr.pythonPath (by decide))
  obtain ⟨v5, e5⟩ := Option.isSome_iff_exists.mp (hc BStr.openOcdPath (by decide))
  obtain ⟨v6, e6⟩ := Option.isSome_iff_exists.mp (hc BStr.openOcdConfig (by decide))
  obtain ⟨v7, e7⟩ := Option.isSome_iff_exists.mp (hc BStr.stm32SvdPath (by decide))
  obtain ⟨v8, e8⟩ := Option.isSome_iff_exists.mp (hc BStr.stm32SvdFile (by decide))
  refine ⟨[("ABOUT1", .str "Common tools paths that are automatically filled in buildData.json."),
    ("ABOUT2", .str "Delete/correct this file if paths change on system."),
    (BStr.gccExePath, v1), (BStr.gccInludePath, v2), (BStr.buildToolsPath, v3),
    (BStr.pythonPath, v4), (BStr.openOcdPath, v5), (BStr.openOcdConfig, v6),
    (BStr.stm32SvdPath, v7), (BStr.stm32SvdFile, v8)], ?_, ?_⟩
  · rw [createUserToolsFile, e1, e2, e3, e4, e5, e6, e7, e8]
  · intro k hk
    simp only [userToolsKeys, List.mem_cons, List.not_mem_nil, or_false] at hk
    rcases hk with rfl | rfl | rfl | rfl | rfl | rfl | rfl | rfl
    · rw [e1]
      simp [dGet, BStr.gccExePath, BStr.gccInludePath, BStr.buildToolsPath, BStr.pythonPath,
        BStr.openOcdPath, BStr.openOcdConfig, BStr.stm32SvdPath, BStr.stm32SvdFile]
    · rw [e2]
      simp [dGet, BStr.gccExePath, BStr.gccInludePath, BStr.buildToolsPath, BStr.pythonPath,
        BStr.openOcdPath, BStr.openOcdConfig, BStr.stm32SvdPath, BStr.stm32SvdFile]
    · rw [e3]
      simp [dGet, BStr.gccExePath, BStr.gccInludePath, BStr.buildToolsPath, BStr.pythonPath,
        BStr.openOcdPath, BStr.openOcdConfig, BStr.stm32SvdPath, BStr.stm32SvdFile]
    · rw [e4]
      simp [dGet, BStr.gccExePath, BStr.gccInludePath, BStr.buildToolsPath, BStr.pythonPath,
        BStr.openOcdPath, BStr.openOcdConfig, BStr.stm32SvdPath, BStr.stm32SvdFile]
    · rw [e5]
      simp [dGet, BStr.gccExePath, BStr.gccInludePath, BStr.buildToolsPath, BStr.pythonPath,
        BStr.openOcdPath, BStr.openOcdConfig, BStr.stm32SvdPath, BStr.stm32SvdFile]
    · rw [e6]
      simp [dGet, BStr.gccExePath, BStr.gccInludePath, BStr.buildToolsPath, BStr.pythonPath,
        BStr.openOcdPath, BStr.openOcdConfig, BStr.stm32SvdPath, BStr.stm32SvdFile]
    · rw [e7]
      simp [dGet, BStr.gccExePath, BStr.gccInludePath, BStr.buildToolsPath, BStr.pythonPath,
        BStr.openOcdPath, BStr.openOcdConfig, BStr.stm32SvdPath, BStr.stm32SvdFile]
    · rw [e8]
      simp [dGet, BStr.gccExePath, BStr.gccInludePath, BStr.buildToolsPath, BStr.pythonPath,
        BStr.openOcdPath, BStr.openOcdConfig, BStr.stm32SvdPath, BStr.stm32SvdFile]

/-- `createUserToolsFile` depends only on the eight tool fields. -/
theorem createUserToolsFile_congr (V2 V : Doc)
    (h : ∀ k ∈ userToolsKeys, dGet V2 k = dGet V k) :
    createUserToolsFile V2 = createUserToolsFile V := by
  rw [createUserToolsFile, createUserToolsFile,
    h BStr.gccExePath (by decide), h BStr.gccInludePath (by decide),
    h BStr.buildToolsPath (by decide), h BStr.pythonPath (by decide),
    h BStr.openOcdPath (by decide), h BStr.openOcdConfig (by decide),
    h BStr.stm32SvdPath (by decide), h BStr.stm32SvdFile (by decide)]

/-- When all four tracked paths and python pass the probe, a `request = False`
reconciliation is exactly the `pythonPath` refresh. -/
theorem verify_all_valid_noop (ctx : Ctx) (bd : Doc) (inp : List String)
    (h1 : ∃ s, dGet bd BStr.gccExePath = some (.str s) ∧ pathExists ctx.fs (some s) = true)
    (h2 : ∃ s, dGet bd BStr.buildToolsPath = some (.str s) ∧ pathExists ctx.fs (some s) = true)
    (h3 : ∃ s, dGet bd BStr.openOcdPath = some (.str s) ∧ pathExists ctx.fs (some s) = true)
    (h4 : ∃ s, dGet bd BStr.stm32SvdPath = some (.str s) ∧ pathExists ctx.fs (some s) = true)
    (hpy : pathExists ctx.fs (some (pythonCmd ctx.osIs)) = true) :
    verifyExistingPaths ctx bd false inp
      = .ok (dSet bd BStr.pythonPath (.str (pythonCmd ctx.osIs)), inp) := by
  obtain ⟨s1, v1, x1⟩ := h1
  obtain ⟨s2, v2, x2⟩ := h2
  obtain ⟨s3, v3, x3⟩ := h3
  obtain ⟨s4, v4, x4⟩ := h4
  have hD : ∀ j, j ≠ BStr.pythonPath →
      dGet (dSet bd BStr.pythonPath (.str (pythonCmd ctx.osIs))) j = dGet bd j :=
    fun j hj => dGet_dSet_ne _ _ _ _ hj
  rw [verifyExistingPaths, toolsList]
  refine (loopStep _ _ _ _ _ _).mpr
    ⟨(dSet bd BStr.pythonPath (.str (pythonCmd ctx.osIs)), inp),
      processTool_valid_run ctx _ _ _ bd inp s1 v1 x1 hpy, ?_⟩
  refine (loopStep _ _ _ _ _ _).mpr
    ⟨(dSet bd BStr.pythonPath (.str (pythonCmd ctx.osIs)), inp), ?_, ?_⟩
  · have e := processTool_valid_run ctx BStr.buildToolsPath "make" "make"
      (dSet bd BStr.pythonPath (.str (pythonCmd ctx.osIs))) inp s2
      (by rw [hD _ (by decide)]; exact v2) x2 hpy
    rw [dSet_dSet_same] at e
    exact e
  refine (loopStep _ _ _ _ _ _).mpr
    ⟨(dSet bd BStr.pythonPath (.str (pythonCmd ctx.osIs)), inp), ?_, ?_⟩
  · have e := processTool_valid_run ctx BStr.openOcdPath "openocd" "openocd"
      (dSet bd BStr.pythonPath (.str (pythonCmd ctx.osIs))) inp s3
      (by rw [hD _ (by decide)]; exact v3) x3 hpy
    rw [dSet_dSet_same] at e
    exact e
  refine (loopStep _ _ _ _ _ _).mpr
    ⟨(dSet bd BStr.pythonPath (.str (pythonCmd ctx.osIs)), inp), ?_, ?_⟩
  · have e := processTool_valid_run ctx BStr.stm32SvdPath
      "STM target \x27*.svd\x27 folder (example: .../Keil*/CMSIS/SVD)"
      (ctx.workspacePath ++ "SVD")
      (dSet bd BStr.pythonPath (.str (pythonCmd ctx.osIs))) inp s4
      (by rw [hD _ (by decide)]; exact v4) x4 hpy
    rw [dSet_dSet_same] at e
    exact e
  exact (loopNil _ _ _ _).mpr rfl

/-! ## Claim C6 — derived gcc header-search directory -/

/-- C6: when the walk of `lib/gcc/arm-none-eabi` under the compiler's
installation root yields exactly one directory containing the `stdint.h`
marker — the `<version>/include` directory — the derived header-search
directory is that directory's (normalized) path; and when no walked directory
contains the marker, the computation terminates fatally (`printAndQuit`)
rather than returning. -/
theorem c6_gcc_include_path :
    (∀ (fs : FileSys) (gccExePath version incDir : String) (files : List String),
      incDir = posixJoin (posixJoin (gccSearchPath gccExePath) version) "include" →
      (fs.osWalk (gccSearchPath gccExePath)).filter (fun e => e.2.contains "stdint.h")
        = [(incDir, files)] →
      getGccIncludePath fs gccExePath = .ok (pathWithForwardSlashes incDir)) ∧
    (∀ (fs : FileSys) (gccExePath : String),
      (fs.osWalk (gccSearchPath gccExePath)).filter (fun e => e.2.contains "stdint.h") = [] →
      ∃ msg, getGccIncludePath fs gccExePath = .error (.fatal msg)) := by
  constructor
  · intro fs g version incDir files hshape hfilter
    unfold getGccIncludePath
    rw [find?_of_filter_singleton _ _ _ _ hfilter]
  · intro fs g hfilter
    unfold getGccIncludePath
    simp only [find?_of_filter_nil _ _ hfilter]
    exact ⟨_, rfl⟩

/-- Witness for C6: a concrete toolchain tree with the marker in
`9.2.1/include`, and a concrete empty toolchain. -/
theorem c6_gcc_include_path_witness :
    (getGccIncludePath
      { osPathExists := fun _ => false, shutilWhich := fun _ => none,
        osWalk := fun p =>
          if p = "/opt/gcc/lib/gcc/arm-none-eabi" then
            [("/opt/gcc/lib/gcc/arm-none-eabi/9.2.1/include", ["stdint.h", "stdbool.h"])]
          else [] }
      "/opt/gcc/bin/arm-none-eabi-gcc"
      = .ok (pathWithForwardSlashes "/opt/gcc/lib/gcc/arm-none-eabi/9.2.1/include")) ∧
    (∃ msg, getGccIncludePath
      { osPathExists := fun _ => false, shutilWhich := fun _ => none,
        osWalk := fun _ => [] }
      "/opt/gcc/bin/arm-none-eabi-gcc" = .error (.fatal msg)) := by
  constructor
  · exact c6_gcc_include_path.1 _ "/opt/gcc/bin/arm-none-eabi-gcc" "9.2.1"
      "/opt/gcc/lib/gcc/arm-none-eabi/9.2.1/include" ["stdint.h", "stdbool.h"]
      (by decide) (by decide)
  · exact c6_gcc_include_path.2 _ "/opt/gcc/bin/arm-none-eabi-gcc" (by decide)

/-! ## Claim C7 — debugger config line validation -/

/-- A scan succeeds exactly when every fragment is a valid path under the
scripts directory or a flag. -/
theorem scanConfigArgs_isSome (fs : FileSys) (sp : String) (args acc : List String) :
    (scanConfigArgs fs sp acc args).isSome = args.all (argOk fs sp) := by
  induction args generalizing acc with
  | nil => simp [scanConfigArgs]
  | cons a rest ih =>
    by_cases h1 : pathExists fs (some (sp ++ "/" ++ a)) = true
    · simp [scanConfigArgs, h1, ih, argOk]
    · by_cases h2 : pyStartsWith a "-" = true <;>
        simp [scanConfigArgs, h1, h2, ih, argOk]

/-- The value a successful scan collects: the script-directory-resolved paths
of exactly the path-valid fragments, in order, after the accumulator. -/
theorem scanConfigArgs_eq (fs : FileSys) (sp : String) (args acc res : List String)
    (h : scanConfigArgs fs sp acc args = some res) :
    res = acc ++ (args.filter (fun a => pathExists fs (some (sp ++ "/" ++ a)))).map
      (fun a => sp ++ "/" ++ a) := by
  induction args generalizing acc with
  | nil =>
    simp [scanConfigArgs] at h
    simp [h.symm]
  | cons a rest ih =>
    by_cases h1 : pathExists fs (some (sp ++ "/" ++ a)) = true
    · rw [scanConfigArgs] at h
      rw [if_pos h1] at h
      have hres := ih _ h
      simp only [List.filter_cons, h1, if_true, List.map_cons, hres, List.append_assoc,
        List.singleton_append]
    · by_cases h2 : pyStartsWith a "-" = true
      · rw [scanConfigArgs] at h
        rw [if_neg (by simpa using h1), if_pos h2] at h
        have hres := ih _ h
        simp only [List.filter_cons, h1, if_false, Bool.false_eq_true, hres]
      · rw [scanConfigArgs] at h
        rw [if_neg (by simpa using h1), if_neg (by simpa using h2)] at h
        exact absurd h (by simp)

/-- A returning `getOpenOcdConfig` consumed some wholly-rejected lines and then
one wholly-accepted line. -/
theorem getOpenOcdConfig_ok (fs : FileSys) (p : String) (inp : List String)
    (paths rest : List String) (h : getOpenOcdConfig fs p inp = .ok (paths, rest)) :
    ∃ pre line, inp = pre ++ line :: rest ∧
      (∀ l ∈ pre, processConfigLine fs (openOcdScriptsPath p) l = none) ∧
      processConfigLine fs (openOcdScriptsPath p) line = some paths := by
  induction inp with
  | nil => simp [getOpenOcdConfig] at h
  | cons line tl ih =>
    rw [getOpenOcdConfig] at h
    cases hline : processConfigLine fs (openOcdScriptsPath p) line with
    | some cp =>
      rw [hline] at h
      obtain ⟨h1, h2⟩ := by simpa using h
      exact ⟨[], line, by simp [h2], by simp, by rw [hline, h1]⟩
    | none =>
      rw [hline] at h
      obtain ⟨pre, l, e1, e2, e3⟩ := ih h
      exact ⟨line :: pre, l, by simp [e1], by
        intro x hx
        rcases List.mem_cons.mp hx with hx | hx
        · subst hx; exact hline
        · exact e2 x hx, e3⟩

/-- C7: every fragment of an entered debugger-config line is validated against
the debugger's script directory; a leading-`-` fragment is accepted without
validation; a line with any fragment neither path-valid nor a flag is
rejected whole (re-prompt, no partial acceptance), and the operation returns
exactly the resolved paths of one fully-accepted line. -/
theorem c7_openocd_config_validation :
    (∀ (fs : FileSys) (scriptsPath line : String),
      (processConfigLine fs scriptsPath line).isSome
        = (pySplitWs (pathWithForwardSlashes line)).all (argOk fs scriptsPath)) ∧
    (∀ (fs : FileSys) (scriptsPath line : String) (paths : List String),
      processConfigLine fs scriptsPath line = some paths →
      paths = ((pySplitWs (pathWithForwardSlashes line)).filter
        (fun a => pathExists fs (some (scriptsPath ++ "/" ++ a)))).map
        (fun a => scriptsPath ++ "/" ++ a)) ∧
    (∀ (fs : FileSys) (openOcdPath line : String) (rest : List String),
      processConfigLine fs (openOcdScriptsPath openOcdPath) line = none →
      getOpenOcdConfig fs openOcdPath (line :: rest) = getOpenOcdConfig fs openOcdPath rest) ∧
    (∀ (fs : FileSys) (openOcdPath : String) (inp rest paths : List String),
      getOpenOcdConfig fs openOcdPath inp = .ok (paths, rest) →
      ∃ pre line, inp = pre ++ line :: rest ∧
        (∀ l ∈ pre, processConfigLine fs (openOcdScriptsPath openOcdPath) l = none) ∧
        processConfigLine fs (openOcdScriptsPath openOcdPath) line = some paths) := by
  refine ⟨fun fs sp line => ?_, fun fs sp line paths h => ?_, fun fs p line rest h => ?_,
    fun fs p inp rest paths h => getOpenOcdConfig_ok fs p inp paths rest h⟩
  · exact scanConfigArgs_isSome fs sp _ []
  · simpa using scanConfigArgs_eq fs sp _ [] paths h
  · rw [getOpenOcdConfig, h]

/-- Witness for C7: a concrete scripts directory where
`-f interface/stlink.cfg` is accepted after a rejected line. -/
theorem c7_openocd_config_validation_witness :
    (∃ pre line,
      (["typo.cfg extra", "-f interface/stlink.cfg"] : List String) = pre ++ line :: [] ∧
      (∀ l ∈ pre, processConfigLine
        { osPathExists := fun p => p == "/ocd/share/openocd/scripts/interface/stlink.cfg",
          shutilWhich := fun _ => none, osWalk := fun _ => [] }
        (openOcdScriptsPath "/ocd/bin/openocd") l = none) ∧
      processConfigLine
        { osPathExists := fun p => p == "/ocd/share/openocd/scripts/interface/stlink.cfg",
          shutilWhich := fun _ => none, osWalk := fun _ => [] }
        (openOcdScriptsPath "/ocd/bin/openocd") line
        = some ["/ocd/share/openocd/scripts/interface/stlink.cfg"]) := by
  exact c7_openocd_config_validation.2.2.2
    { osPathExists := fun p => p == "/ocd/share/openocd/scripts/interface/stlink.cfg",
      shutilWhich := fun _ => none, osWalk := fun _ => [] }
    "/ocd/bin/openocd" ["typo.cfg extra", "-f interface/stlink.cfg"] []
    ["/ocd/share/openocd/scripts/interface/stlink.cfg"] (by rfl)

/-! ## Claim C5 — the derived target-executable path -/

/-- C5 counterexample: with workspace root `/ws`, output directory `build` and
project name `proj`, the descriptor receives `/ws/build/proj.elf`, not the
claim's `<outputDir>/<projectName>.elf` = `build/proj.elf`. -/
theorem c5_target_executable_counterexample :
    (match addMakefileDataToBuildDataFile mkfStrW "/ws" [] mdW with
     | .ok bd => dGet bd BStr.targetExecutablePath
     | .error _ => none) = some (.str "/ws/build/proj.elf") ∧
    dGet mdW mkfStrW.buildDir = some (.str "build") ∧
    dGet mdW mkfStrW.projectName = some (.str "proj") ∧
    specTargetExecutablePath "build" "proj" = "build/proj.elf" ∧
    "/ws/build/proj.elf" ≠ "build/proj.elf" := by
  decide

/-- C5 (amended): the target-executable field written into the descriptor is
the workspace root joined with the output directory and
`<projectName>.elf`, path-normalized with forward slashes (for an absolute
output directory the join reduces to `<outputDir>/<projectName>.elf`). -/
theorem c5_target_executable_path (mkfStr : MakefileStrings) (ws : String)
    (buildData makefileData : Doc) (bdp pn : String)
    (h1 : (dGet makefileData mkfStr.cSources).isSome = true)
    (h2 : (dGet makefileData mkfStr.asmSources).isSome = true)
    (h3 : (dGet makefileData mkfStr.cIncludes).isSome = true)
    (h4 : (dGet makefileData mkfStr.asmIncludes).isSome = true)
    (h5 : (dGet makefileData mkfStr.cDefines).isSome = true)
    (h6 : (dGet makefileData mkfStr.asmDefines).isSome = true)
    (h7 : (dGet makefileData mkfStr.cFlags).isSome = true)
    (h8 : (dGet makefileData mkfStr.asmFlags).isSome = true)
    (h9 : dGet makefileData mkfStr.buildDir = some (.str bdp))
    (h10 : dGet makefileData mkfStr.projectName = some (.str pn)) :
    ∃ bd', addMakefileDataToBuildDataFile mkfStr ws buildData makefileData = .ok bd' ∧
      dGet bd' BStr.targetExecutablePath
        = some (.str (pathWithForwardSlashes (posixJoin (posixJoin ws bdp) (pn ++ ".elf")))) := by
  obtain ⟨v1, e1⟩ := Option.isSome_iff_exists.mp h1
  obtain ⟨v2, e2⟩ := Option.isSome_iff_exists.mp h2
  obtain ⟨v3, e3⟩ := Option.isSome_iff_exists.mp h3
  obtain ⟨v4, e4⟩ := Option.isSome_iff_exists.mp h4
  obtain ⟨v5, e5⟩ := Option.isSome_iff_exists.mp h5
  obtain ⟨v6, e6⟩ := Option.isSome_iff_exists.mp h6
  obtain ⟨v7, e7⟩ := Option.isSome_iff_exists.mp h7
  obtain ⟨v8, e8⟩ := Option.isSome_iff_exists.mp h8
  have hrun : addMakefileDataToBuildDataFile mkfStr ws buildData makefileData
      = .ok (dSet (dSet (dSet (dSet (dSet (dSet (dSet (dSet (dSet (dSet buildData
          BStr.cSources v1) BStr.asmSources v2) BStr.cIncludes v3) BStr.asmIncludes v4)
          BStr.cDefines v5) BStr.asmDefines v6) BStr.cFlags v7) BStr.asmFlags v8)
          BStr.buildDirPath (.str bdp)) BStr.targetExecutablePath
          (.str (getBuildElfFilePath ws bdp pn))) := by
    unfold addMakefileDataToBuildDataFile
    simp [mget, e1, e2, e3, e4, e5, e6, e7, e8, h9, h10, Bind.bind, Except.bind]
  refine ⟨_, hrun, ?_⟩
  rw [dGet_dSet_self]
  rfl

/-- Witness for C5's amended theorem at the concrete C5 fixture. -/
theorem c5_target_executable_path_witness :
    dGet mdW mkfStrW.buildDir = some (.str "build") ∧
    (∃ bd', addMakefileDataToBuildDataFile mkfStrW "/ws2" [] mdW = .ok bd' ∧
      dGet bd' BStr.targetExecutablePath
        = some (.str (pathWithForwardSlashes
            (posixJoin (posixJoin "/ws2" "build") ("proj" ++ ".elf"))))) :=
  ⟨by decide,
    c5_target_executable_path mkfStrW "/ws2" [] mdW "build" "proj" (by decide) (by decide)
      (by decide) (by decide) (by decide) (by decide) (by decide) (by decide) (by decide)
      (by decide)⟩

/-- Witness for C2: the stored compiler path `badgcc` fails the probe; after
the operator accepts the detected default, reconciliation returns with a
probed-valid compiler path. -/
theorem c2_reconciliation_repairs_witness :
    dGet bdC2 BStr.gccExePath = some (.str "badgcc") ∧
    pathExists ctxW.fs (some "badgcc") = false ∧
    ∃ bd' inp', verifyExistingPaths ctxW bdC2 false ["y"] = .ok (bd', inp') ∧
      ∃ s, dGet bd' BStr.gccExePath = some (.str s) ∧ pathExists ctxW.fs (some s) = true := by
  refine ⟨by decide, by decide, ?_⟩
  have hok : exceptIsOk (verifyExistingPaths ctxW bdC2 false ["y"]) = true := by decide
  cases hrun : verifyExistingPaths ctxW bdC2 false ["y"] with
  | error e =>
    rw [hrun] at hok
    exact absurd hok (by simp [exceptIsOk])
  | ok pr =>
    obtain ⟨bd', inp'⟩ := pr
    refine ⟨bd', inp', rfl, ?_⟩
    refine c2_reconciliation_repairs ctxW (fun c w h => Option.noConfusion h) bdC2 false ["y"]
      bd' inp' (BStr.gccExePath, "arm-none-eabi-gcc", "arm-none-eabi-gcc", false) (by decide)
      ?_ hrun
    rintro ⟨s, hs, hv⟩
    simp only [] at hs
    rw [show dGet bdC2 BStr.gccExePath = some (JVal.str "badgcc") from rfl] at hs
    obtain rfl : s = "badgcc" := by simpa using hs.symm
    exact absurd hv (by decide)

/-- Witness for C8 at the concrete all-valid fixture. -/
theorem c8_valid_path_untouched_witness :
    dGet bdC8 BStr.gccExePath = some (.str "G") ∧
    pathExists ctxW.fs (some "G") = true ∧
    (∃ bd' inp', verifyExistingPaths ctxW bdC8 false [] = .ok (bd', inp') ∧
      dGet bd' BStr.gccExePath = some (.str "G") ∧
      ∀ dk, derivedKeyOf BStr.gccExePath = some dk → dGet bd' dk = dGet bdC8 dk) ∧
    processTool ctxW false (BStr.gccExePath, "arm-none-eabi-gcc", "arm-none-eabi-gcc", false)
      (bdC8, []) = .ok (dSet bdC8 BStr.pythonPath (.str (pythonCmd ctxW.osIs)), []) := by
  refine ⟨by decide, by decide, ?_, ?_⟩
  · have hok : exceptIsOk (verifyExistingPaths ctxW bdC8 false []) = true := by decide
    cases hrun : verifyExistingPaths ctxW bdC8 false [] with
    | error e =>
      rw [hrun] at hok
      exact absurd hok (by simp [exceptIsOk])
    | ok pr =>
      obtain ⟨bd', inp'⟩ := pr
      refine ⟨bd', inp', rfl, ?_⟩
      exact c8_valid_path_untouched.1 ctxW bdC8 [] bd' inp'
        (BStr.gccExePath, "arm-none-eabi-gcc", "arm-none-eabi-gcc", false) "G"
        (by decide) (by decide) (by decide) hrun
  · exact c8_valid_path_untouched.2 ctxW
      (BStr.gccExePath, "arm-none-eabi-gcc", "arm-none-eabi-gcc", false) (bdC8, []) "G"
      rfl (by decide) (by decide) (by decide)

/-! ## Claim C4 — idempotence of reconciliation -/

/-- Keys of the cache never collide with the version/timestamp stamps. -/
theorem userToolsKeys_ne_stamp {k : String} (hk : k ∈ userToolsKeys) :
    k ≠ "VERSION" ∧ k ≠ "LAST_RUN" := by
  simp only [userToolsKeys, List.mem_cons, List.not_mem_nil, or_false] at hk
  rcases hk with rfl | rfl | rfl | rfl | rfl | rfl | rfl | rfl <;> exact ⟨by decide, by decide⟩

/-- Starting from the state a reconciliation run leaves behind — a stamped
descriptor over a verified document `V` and the cache written from `V` — a
further run rewrites the identical cache document and changes the descriptor
only at `LAST_RUN`. -/
theorem reconcile_second_run (ctx : Ctx) (now2 now1i : String) (V C : Doc)
    (inp : List String)
    (hVpy : dGet V BStr.pythonPath = some (.str (pythonCmd ctx.osIs)))
    (hVc : ∀ k ∈ userToolsKeys, (dGet V k).isSome)
    (hVg : ∃ s, dGet V BStr.gccExePath = some (.str s) ∧ pathExists ctx.fs (some s) = true)
    (hVm : ∃ s, dGet V BStr.buildToolsPath = some (.str s) ∧ pathExists ctx.fs (some s) = true)
    (hVo : ∃ s, dGet V BStr.openOcdPath = some (.str s) ∧ pathExists ctx.fs (some s) = true)
    (hVs : ∃ s, dGet V BStr.stm32SvdPath = some (.str s) ∧ pathExists ctx.fs (some s) = true)
    (hpy : pathExists ctx.fs (some (pythonCmd ctx.osIs)) = true)
    (hCw : createUserToolsFile V = some C)
    (hCk : ∀ k ∈ userToolsKeys, dGet C k = dGet V k) :
    reconcileRun ctx now2
      ⟨some (.json (dSet (dSet V "VERSION" (.str scriptVersion)) "LAST_RUN" (.str now1i))),
        some (.json C), inp⟩
      = .ok ⟨some (.json (dSet (dSet (dSet V "VERSION" (.str scriptVersion)) "LAST_RUN"
          (.str now1i)) "LAST_RUN" (.str now2))), some (.json C), inp⟩ := by
  have hB1k : ∀ k ∈ userToolsKeys,
      dGet (dSet (dSet V "VERSION" (.str scriptVersion)) "LAST_RUN" (.str now1i)) k
      = dGet V k := by
    intro k hk
    obtain ⟨h1, h2⟩ := userToolsKeys_ne_stamp hk
    rw [dGet_dSet_ne _ _ _ _ h2, dGet_dSet_ne _ _ _ _ h1]
  have hadd2 : addToolsPathsData C
      (dSet (dSet V "VERSION" (.str scriptVersion)) "LAST_RUN" (.str now1i))
      = .ok (dSet (dSet V "VERSION" (.str scriptVersion)) "LAST_RUN" (.str now1i)) :=
    addFold_id C userToolsKeys _ (fun k hk =>
      ⟨(hCk k hk).trans (hB1k k hk).symm, by rw [hCk k hk]; exact hVc k hk⟩)
  obtain ⟨s1, hv1, hx1⟩ := hVg
  obtain ⟨s2, hv2, hx2⟩ := hVm
  obtain ⟨s3, hv3, hx3⟩ := hVo
  obtain ⟨s4, hv4, hx4⟩ := hVs
  have hver2 := verify_all_valid_noop ctx
    (dSet (dSet V "VERSION" (.str scriptVersion)) "LAST_RUN" (.str now1i)) inp
    ⟨s1, by rw [hB1k _ (by decide)]; exact hv1, hx1⟩
    ⟨s2, by rw [hB1k _ (by decide)]; exact hv2, hx2⟩
    ⟨s3, by rw [hB1k _ (by decide)]; exact hv3, hx3⟩
    ⟨s4, by rw [hB1k _ (by decide)]; exact hv4, hx4⟩ hpy
  have hB1py : dGet (dSet (dSet V "VERSION" (.str scriptVersion)) "LAST_RUN" (.str now1i))
      BStr.pythonPath = some (.str (pythonCmd ctx.osIs)) := by
    rw [hB1k _ (by decide)]
    exact hVpy
  rw [dSet_eq_self hB1py] at hver2
  have hC2w : createUserToolsFile
      (dSet (dSet V "VERSION" (.str scriptVersion)) "LAST_RUN" (.str now1i)) = some C := by
    rw [createUserToolsFile_congr _ _ hB1k]
    exact hCw
  have hprep2 : prepareBuildData ctx
      ⟨some (.json (dSet (dSet V "VERSION" (.str scriptVersion)) "LAST_RUN" (.str now1i))),
        some (.json C), inp⟩
      = .ok (dSet (dSet V "VERSION" (.str scriptVersion)) "LAST_RUN" (.str now1i),
          ⟨some (.json (dSet (dSet V "VERSION" (.str scriptVersion)) "LAST_RUN"
            (.str now1i))), some (.json C), inp⟩) := by
    rw [prepareBuildData]
    simp only [checkBuildDataFile, getBuildData, checkToolsPathFile, getToolsPathsData,
      exceptBindOk, if_pos]
    rw [hadd2, exceptBindOk, hver2]
    simp only [hC2w]
  have hB1ver : dGet (dSet (dSet V "VERSION" (.str scriptVersion)) "LAST_RUN" (.str now1i))
      "VERSION" = some (.str scriptVersion) := by
    rw [dGet_dSet_ne _ _ _ _ (by decide : ("VERSION" : String) ≠ "LAST_RUN"), dGet_dSet_self]
  rw [reconcileRun, hprep2]
  simp only [exceptBindOk, overwriteBuildDataFile]
  rw [dSet_eq_self hB1ver]

/-- C4: for a filesystem state in which all stored tool paths (descriptor and,
when present, cache) and python pass the probe, running reconciliation twice
in a row with no filesystem change and no operator input yields byte-identical
documents on the second run: the same `toolsPaths.json`, and a
`buildData.json` differing only in the `LAST_RUN` timestamp field — both when
the cache already exists (complete) and when it does not yet exist (complete
descriptor). -/
theorem c4_reconciliation_idempotent :
    (∀ (ctx : Ctx) (now1 now2 : String) (w : World) (bd0 tp0 : Doc),
      w.buildDataFile = some (.json bd0) →
      w.toolsPathsFile = some (.json tp0) →
      (∀ t ∈ toolsList ctx.workspacePath,
        ∃ s, dGet bd0 t.1 = some (.str s) ∧ pathExists ctx.fs (some s) = true) →
      (∀ k ∈ userToolsKeys, (dGet tp0 k).isSome) →
      (∀ t ∈ toolsList ctx.workspacePath,
        ∃ s, dGet tp0 t.1 = some (.str s) ∧ pathExists ctx.fs (some s) = true) →
      pathExists ctx.fs (some (pythonCmd ctx.osIs)) = true →
      ∃ w1 w2, reconcileRun ctx now1 w = .ok w1 ∧ reconcileRun ctx now2 w1 = .ok w2 ∧
        w2.toolsPathsFile = w1.toolsPathsFile ∧ w2.input = w1.input ∧
        ∃ d1, w1.buildDataFile = some (.json d1) ∧
          w2.buildDataFile = some (.json (dSet d1 "LAST_RUN" (.str now2)))) ∧
    (∀ (ctx : Ctx) (now1 now2 : String) (w : World) (bd0 : Doc),
      w.buildDataFile = some (.json bd0) →
      w.toolsPathsFile = none →
      (∀ k ∈ userToolsKeys, (dGet bd0 k).isSome) →
      (∀ t ∈ toolsList ctx.workspacePath,
        ∃ s, dGet bd0 t.1 = some (.str s) ∧ pathExists ctx.fs (some s) = true) →
      pathExists ctx.fs (some (pythonCmd ctx.osIs)) = true →
      ∃ w1 w2, reconcileRun ctx now1 w = .ok w1 ∧ reconcileRun ctx now2 w1 = .ok w2 ∧
        w2.toolsPathsFile = w1.toolsPathsFile ∧ w2.input = w1.input ∧
        ∃ d1, w1.buildDataFile = some (.json d1) ∧
          w2.buildDataFile = some (.json (dSet d1 "LAST_RUN" (.str now2)))) := by
  constructor
  · intro ctx now1 now2 w bd0 tp0 hbd htp hbd0valid hcomplete htpvalid hpy
    obtain ⟨M, hM⟩ := addFold_total tp0 userToolsKeys bd0 hcomplete
    obtain ⟨hMk, hMrest⟩ := addFold_ok tp0 userToolsKeys (by decide) bd0 M hM
    obtain ⟨s1, hv1, hx1⟩ := htpvalid
      (BStr.gccExePath, "arm-none-eabi-gcc", "arm-none-eabi-gcc", false) (by simp [toolsList])
    obtain ⟨s2, hv2, hx2⟩ := htpvalid
      (BStr.buildToolsPath, "make", "make", false) (by simp [toolsList])
    obtain ⟨s3, hv3, hx3⟩ := htpvalid
      (BStr.openOcdPath, "openocd", "openocd", false) (by simp [toolsList])
    obtain ⟨s4, hv4, hx4⟩ := htpvalid
      (BStr.stm32SvdPath, "STM target \x27*.svd\x27 folder (example: .../Keil*/CMSIS/SVD)",
        ctx.workspacePath ++ "SVD", false) (by simp [toolsList])
    simp only [] at hv1 hv2 hv3 hv4
    have hver1 := verify_all_valid_noop ctx M w.input
      ⟨s1, by rw [hMk _ (by decide)]; exact hv1, hx1⟩
      ⟨s2, by rw [hMk _ (by decide)]; exact hv2, hx2⟩
      ⟨s3, by rw [hMk _ (by decide)]; exact hv3, hx3⟩
      ⟨s4, by rw [hMk _ (by decide)]; exact hv4, hx4⟩ hpy
    have hVc : ∀ k ∈ userToolsKeys,
        (dGet (dSet M BStr.pythonPath (.str (pythonCmd ctx.osIs))) k).isSome := by
      intro k hk
      by_cases hkp : k = BStr.pythonPath
      · subst hkp
        rw [dGet_dSet_self]
        rfl
      · rw [dGet_dSet_ne _ _ _ _ hkp, hMk k hk]
        exact hcomplete k hk
    obtain ⟨C, hCw, hCk⟩ := createUserToolsFile_spec _ hVc
    have hprep1 : prepareBuildData ctx w
        = .ok (dSet M BStr.pythonPath (.str (pythonCmd ctx.osIs)),
            ⟨some (.json bd0), some (.json C), w.input⟩) := by
      rw [prepareBuildData, hbd, htp]
      simp only [checkBuildDataFile, getBuildData, checkToolsPathFile, getToolsPathsData,
        exceptBindOk, if_pos]
      rw [show addToolsPathsData tp0 bd0 = .ok M from hM, exceptBindOk, hver1]
      simp only [hCw]
    have hrun1 : reconcileRun ctx now1 w
        = .ok ⟨some (.json (dSet (dSet (dSet M BStr.pythonPath (.str (pythonCmd ctx.osIs)))
            "VERSION" (.str scriptVersion)) "LAST_RUN" (.str now1))),
            some (.json C), w.input⟩ := by
      rw [reconcileRun, hprep1]
      simp only [exceptBindOk, overwriteBuildDataFile]
    have hrun2 := reconcile_second_run ctx now2 now1
      (dSet M BStr.pythonPath (.str (pythonCmd ctx.osIs))) C w.input
      (dGet_dSet_self M BStr.pythonPath (.str (pythonCmd ctx.osIs))) hVc
      ⟨s1, by rw [dGet_dSet_ne _ _ _ _ (by decide), hMk _ (by decide)]; exact hv1, hx1⟩
      ⟨s2, by rw [dGet_dSet_ne _ _ _ _ (by decide), hMk _ (by decide)]; exact hv2, hx2⟩
      ⟨s3, by rw [dGet_dSet_ne _ _ _ _ (by decide), hMk _ (by decide)]; exact hv3, hx3⟩
      ⟨s4, by rw [dGet_dSet_ne _ _ _ _ (by decide), hMk _ (by decide)]; exact hv4, hx4⟩
      hpy hCw hCk
    exact ⟨_, _, hrun1, hrun2, rfl, rfl, _, rfl, rfl⟩
  · intro ctx now1 now2 w bd0 hbd htp hcomplete hbd0valid hpy
    obtain ⟨s1, hv1, hx1⟩ := hbd0valid
      (BStr.gccExePath, "arm-none-eabi-gcc", "arm-none-eabi-gcc", false) (by simp [toolsList])
    obtain ⟨s2, hv2, hx2⟩ := hbd0valid
      (BStr.buildToolsPath, "make", "make", false) (by simp [toolsList])
    obtain ⟨s3, hv3, hx3⟩ := hbd0valid
      (BStr.openOcdPath, "openocd", "openocd", false) (by simp [toolsList])
    obtain ⟨s4, hv4, hx4⟩ := hbd0valid
      (BStr.stm32SvdPath, "STM target \x27*.svd\x27 folder (example: .../Keil*/CMSIS/SVD)",
        ctx.workspacePath ++ "SVD", false) (by simp [toolsList])
    simp only [] at hv1 hv2 hv3 hv4
    have hver1 := verify_all_valid_noop ctx bd0 w.input
      ⟨s1, hv1, hx1⟩ ⟨s2, hv2, hx2⟩ ⟨s3, hv3, hx3⟩ ⟨s4, hv4, hx4⟩ hpy
    have hVc : ∀ k ∈ userToolsKeys,
        (dGet (dSet bd0 BStr.pythonPath (.str (pythonCmd ctx.osIs))) k).isSome := by
      intro k hk
      by_cases hkp : k = BStr.pythonPath
      · subst hkp
        rw [dGet_dSet_self]
        rfl
      · rw [dGet_dSet_ne _ _ _ _ hkp]
        exact hcomplete k hk
    obtain ⟨C, hCw, hCk⟩ := createUserToolsFile_spec _ hVc
    have hprep1 : prepareBuildData ctx w
        = .ok (dSet bd0 BStr.pythonPath (.str (pythonCmd ctx.osIs)),
            ⟨some (.json bd0), some (.json C), w.input⟩) := by
      rw [prepareBuildData, hbd, htp]
      simp only [checkBuildDataFile, getBuildData, checkToolsPathFile, getToolsPathsData,
        exceptBindOk, Bool.false_eq_true, if_false, pure, Except.pure]
      rw [hver1]
      simp only [hCw]
    have hrun1 : reconcileRun ctx now1 w
        = .ok ⟨some (.json (dSet (dSet (dSet bd0 BStr.pythonPath (.str (pythonCmd ctx.osIs)))
            "VERSION" (.str scriptVersion)) "LAST_RUN" (.str now1))),
            some (.json C), w.input⟩ := by
      rw [reconcileRun, hprep1]
      simp only [exceptBindOk, overwriteBuildDataFile]
    have hrun2 := reconcile_second_run ctx now2 now1
      (dSet bd0 BStr.pythonPath (.str (pythonCmd ctx.osIs))) C w.input
      (dGet_dSet_self bd0 BStr.pythonPath (.str (pythonCmd ctx.osIs))) hVc
      ⟨s1, by rw [dGet_dSet_ne _ _ _ _ (by decide)]; exact hv1, hx1⟩
      ⟨s2, by rw [dGet_dSet_ne _ _ _ _ (by decide)]; exact hv2, hx2⟩
      ⟨s3, by rw [dGet_dSet_ne _ _ _ _ (by decide)]; exact hv3, hx3⟩
      ⟨s4, by rw [dGet_dSet_ne _ _ _ _ (by decide)]; exact hv4, hx4⟩
      hpy hCw hCk
    exact ⟨_, _, hrun1, hrun2, rfl, rfl, _, rfl, rfl⟩

/-- Witness for C4 at the concrete fixture: descriptor and cache valid, no
input; two runs produce the same cache document and descriptors differing only
in `LAST_RUN`. -/
theorem c4_reconciliation_idempotent_witness :
    (∀ k ∈ userToolsKeys, (dGet tpC1 k).isSome) ∧
    pathExists ctxW.fs (some (pythonCmd ctxW.osIs)) = true ∧
    ∃ w1 w2, reconcileRun ctxW "t1" wC4 = .ok w1 ∧ reconcileRun ctxW "t2" w1 = .ok w2 ∧
      w2.toolsPathsFile = w1.toolsPathsFile ∧ w2.input = w1.input ∧
      ∃ d1, w1.buildDataFile = some (.json d1) ∧
        w2.buildDataFile = some (.json (dSet d1 "LAST_RUN" (.str "t2"))) := by
  refine ⟨by decide, by decide, ?_⟩
  refine c4_reconciliation_idempotent.1 ctxW "t1" "t2" wC4 bdC4 tpC1 rfl rfl ?_ (by decide) ?_
    (by decide)
  · intro t ht
    simp only [toolsList, List.mem_cons, List.not_mem_nil, or_false] at ht
    rcases ht with rfl | rfl | rfl | rfl
    · exact ⟨"A", rfl, by decide⟩
    · exact ⟨"M", rfl, by decide⟩
    · exact ⟨"O", rfl, by decide⟩
    · exact ⟨"S", rfl, by decide⟩
  · intro t ht
    simp only [toolsList, List.mem_cons, List.not_mem_nil, or_false] at ht
    rcases ht with rfl | rfl | rfl | rfl
    · exact ⟨"B", rfl, by decide⟩
    · exact ⟨"M", rfl, by decide⟩
    · exact ⟨"O", rfl, by decide⟩
    · exact ⟨"S", rfl, by decide⟩

/-! ## Claim C1 — cache vs. descriptor precedence -/

/-- C1 counterexample: descriptor stores the individually valid compiler path
`A`, the cache stores the different valid path `B`; after one reconciliation
run the surviving value is the cache's `B`, not the descriptor's `A` — the
cache was consulted ahead of (and overwrote) an already-valid descriptor
value. -/
theorem c1_cache_beats_valid_descriptor_counterexample :
    pathExists fsW (some "A") = true ∧
    dGet bdC1 BStr.gccExePath = some (.str "A") ∧
    dGet tpC1 BStr.gccExePath = some (.str "B") ∧
    (match prepareBuildData ctxW wC1 with
     | .ok pr => dGet pr.1 BStr.gccExePath
     | .error _ => none) = some (.str "B") ∧
    JVal.str "B" ≠ JVal.str "A" := by
  decide

/-- C1 (amended): when the cache file exists and parses, its values are merged
over the descriptor *before* validation, so for every tool whose cache value
is individually valid the value that survives reconciliation is the cache's,
even if the descriptor's own stored value was also valid; cache values are
validated exactly like native descriptor fields. -/
theorem c1_cache_overrides_descriptor (ctx : Ctx) (w : World) (bd0 tp0 : Doc)
    (t : String × String × String × Bool) (ht : t ∈ toolsList ctx.workspacePath)
    (hbd : w.buildDataFile = some (.json bd0))
    (htp : w.toolsPathsFile = some (.json tp0))
    (hcomplete : ∀ k ∈ userToolsKeys, (dGet tp0 k).isSome)
    (v : String) (hv : dGet tp0 t.1 = some (.str v))
    (hex : pathExists ctx.fs (some v) = true)
    (bdOut : Doc) (w' : World)
    (h : prepareBuildData ctx w = .ok (bdOut, w')) :
    dGet bdOut t.1 = some (.str v) := by
  rw [prepareBuildData, hbd, htp] at h
  simp only [checkBuildDataFile, getBuildData, checkToolsPathFile, getToolsPathsData,
    exceptBindOk, if_pos] at h
  have hmem : t.1 ∈ userToolsKeys := by
    simp only [toolsList, List.mem_cons, List.not_mem_nil, or_false] at ht
    rcases ht with rfl | rfl | rfl | rfl
    · decide
    · decide
    · decide
    · show BStr.stm32SvdPath ∈ userToolsKeys
      decide
  obtain ⟨M, hM⟩ := addFold_total tp0 userToolsKeys bd0 hcomplete
  have hMeq : addToolsPathsData tp0 bd0 = .ok M := hM
  rw [hMeq, exceptBindOk] at h
  obtain ⟨hMk, hMother⟩ := addFold_ok tp0 userToolsKeys (by decide) bd0 M hM
  have hMv : dGet M t.1 = some (.str v) := by rw [hMk t.1 hmem, hv]
  cases hV : verifyExistingPaths ctx M false w.input with
  | error e =>
    rw [hV] at h
    exact absurd h (by simp)
  | ok pr =>
    obtain ⟨V, inp2⟩ := pr
    rw [hV] at h
    simp only [] at h
    have hkeep := verify_keep ctx M w.input V inp2 t v ht hMv hex hV
    cases hC : createUserToolsFile V with
    | some d =>
      rw [hC] at h
      obtain ⟨h1, h2⟩ := by simpa using h
      rw [← h1]
      exact hkeep.1
    | none =>
      rw [hC] at h
      obtain ⟨h1, h2⟩ := by simpa using h
      rw [← h1]
      exact hkeep.1

/-- Witness for C1's amended theorem at the concrete fixture: the cache's `B`
survives. -/
theorem c1_cache_overrides_descriptor_witness :
    (∀ k ∈ userToolsKeys, (dGet tpC1 k).isSome) ∧
    dGet tpC1 BStr.gccExePath = some (.str "B") ∧
    pathExists ctxW.fs (some "B") = true ∧
    ∃ bdOut w', prepareBuildData ctxW wC1 = .ok (bdOut, w') ∧
      dGet bdOut BStr.gccExePath = some (.str "B") := by
  refine ⟨by decide, by decide, by decide, ?_⟩
  have hok : exceptIsOk (prepareBuildData ctxW wC1) = true := by decide
  cases hrun : prepareBuildData ctxW wC1 with
  | error e =>
    rw [hrun] at hok
    exact absurd hok (by simp [exceptIsOk])
  | ok pr =>
    obtain ⟨bdo, wo⟩ := pr
    refine ⟨bdo, wo, rfl, ?_⟩
    exact c1_cache_overrides_descriptor ctxW wC1 bdC1 tpC1
      (BStr.gccExePath, "arm-none-eabi-gcc", "arm-none-eabi-gcc", false) (by decide)
      rfl rfl (by decide) "B" (by decide) (by decide) bdo wo hrun

end VSCodeSTM32IDE
